import Mathlib

/-!
The pxbackup diagnostics collector: a shallow embedding.

Model of `src/main.go` (the collection orchestrator) and `src/utils/utils.go`
(the artifact fetch/write helpers).

* Go strings are byte sequences; they are modelled as `List Char` (`Str`).
* `path/filepath.Join` / `Clean` (Unix) are modelled on path components.
* The cluster, the `kubectl` child process and the file system calls are
  explicit parameters (`World`, `Sys`), goroutines are recorded as the list of
  launched `Task`s, each with its own sequential semantics.
-/

set_option autoImplicit false

namespace LogCollector

/-! ## Strings and paths -/

/-- A Go string. -/
abbrev Str := List Char

/-- Go `strings.Contains`. -/
def Contains : Str → Str → Bool
  | [], sub => sub.isEmpty
  | c :: cs, sub => sub.isPrefixOf (c :: cs) || Contains cs sub

/-- Go `strings.Split(s, "/")`: the fields between the separators. -/
def splitSlash : Str → List Str
  | [] => [[]]
  | c :: cs =>
    if c = '/' then [] :: splitSlash cs
    else
      match splitSlash cs with
      | [] => [[c]]
      | w :: ws => (c :: w) :: ws

/-- Go `strings.Join(elems, "/")`. -/
def joinSlash : List Str → Str
  | [] => []
  | [c] => c
  | c :: d :: cs => c ++ '/' :: joinSlash (d :: cs)

/-- One step of `filepath.Clean` over the path elements met so far (`st`, the
kept elements, last one first): empty and `.` elements are dropped, `..`
removes the element before it, is dropped at the root, and is kept when
nothing but `..` precedes it in a relative path. -/
def cleanStep (rooted : Bool) (st : List Str) (c : Str) : List Str :=
  if c = [] ∨ c = ['.'] then st
  else if c = ['.', '.'] then
    match st with
    | [] => if rooted then [] else [c]
    | t :: rest => if t = ['.', '.'] then c :: t :: rest else rest
  else c :: st

/-- The elements `filepath.Clean` keeps, last one first. -/
def cleanElems (rooted : Bool) (p : Str) : List Str :=
  (splitSlash p).foldl (cleanStep rooted) []

/-- Whether a path starts at the root. -/
def isRooted : Str → Bool
  | '/' :: _ => true
  | _ => false

/-- The path text for the kept elements (last one first): rooted paths start
with `/`, an empty relative path is `.`. -/
def render (rooted : Bool) (out : List Str) : Str :=
  if rooted then '/' :: joinSlash out.reverse
  else if out = [] then ['.']
  else joinSlash out.reverse

/-- Go `filepath.Clean` on Unix: the shortest path lexically equivalent to
`p`; `"."` for the empty path, a trailing slash only for the root. -/
def Clean (p : Str) : Str :=
  if p = [] then ['.']
  else render (isRooted p) (cleanElems (isRooted p) p)

/-- Go `filepath.Join` on Unix: the elements from the first non-empty one on
are joined with `/` and cleaned; the empty string when all are empty. -/
def Join : List Str → Str
  | [] => []
  | e :: es => if e = [] then Join es else Clean (joinSlash (e :: es))

/-- A path element `filepath.Clean` can keep: non-empty, not `.`, without a
separator. -/
def GoodElem (c : Str) : Prop := c ≠ [] ∧ c ≠ ['.'] ∧ '/' ∉ c

/-- The shape of the element stack of `filepath.Clean` (last element first):
`..` is kept only in a relative path and only on top of other `..`. -/
def Good (rooted : Bool) : List Str → Prop
  | [] => True
  | c :: st =>
    GoodElem c ∧
    (c = ['.', '.'] → rooted = false ∧ (st = [] ∨ ∃ rest, st = ['.', '.'] :: rest)) ∧
    Good rooted st

/-- An ordinary file or directory name: a single path element other than
`.` and `..`. -/
def Plain (f : Str) : Prop := f ≠ [] ∧ f ≠ ['.'] ∧ f ≠ ['.', '.'] ∧ '/' ∉ f

/-- A cleaned path that names something below the root or the working
directory: `filepath.Clean` leaves it alone and it has a last element of its
own. -/
def CleanDir (d : Str) : Prop :=
  d ≠ [] ∧ Clean d = d ∧ ∃ c st, Plain c ∧ cleanElems (isRooted d) d = c :: st

/-! ## `utils`: the file system, the child process and the log stream -/

/-- The files of the file system: content by path. -/
abbrev FS := Str → Option Str

/-- The file system with `path` holding `content`. -/
def FS.put (fs : FS) (path content : Str) : FS :=
  fun p => if p = path then some content else fs p

/-- What `cmd.Run()` gives back for a `kubectl` child process whose output
is captured: the error (its text), standard output and standard error. -/
structure CmdResult where
  err : Option Str
  stdout : Str
  stderr : Str

/-- The operating system as the helpers see it. `create path` is the error of
`os.Create`, `run argv` the result of running a command, `writeString path s`
the failure of `file.WriteString`: the number of bytes that reached the file
and the error text. -/
structure Sys where
  create : Str → Option Str
  run : List Str → CmdResult
  writeString : Str → Str → Option (Nat × Str)

/-- Result of a helper: the returned `error`, the file system afterwards and
what was printed to standard output. -/
structure Res where
  err : Option Str
  fs : FS
  out : List Str

/-- The file `WriteResourceSpecToFile` creates (utils.go 20). -/
def specFilePath (filePath resourceName : Str) : Str :=
  Join [filePath, resourceName ++ ".yaml".toList]

/-- The file `WriteResourceDescToFile` creates (utils.go 49). -/
def descFilePath (filePath resourceName : Str) : Str :=
  Join [filePath, resourceName ++ ".txt".toList]

/-- The file `WriteLogsToFile` creates (utils.go 121). -/
def logFilePath (outputDir podName containerName containerType : Str) : Str :=
  Join [outputDir,
    podName ++ "_".toList ++ containerName ++ "_".toList ++ containerType ++ ".log".toList]

/-- The function `WriteResourceSpecToFile` (utils.go 17-43). The file is created before the
command runs. -/
def WriteResourceSpecToFile (sys : Sys) (fs : FS)
    (filePath ns resourceName resourceType : Str) : Res :=
  let cmd := ["kubectl".toList, "get".toList, resourceType, resourceName, "-n".toList, ns,
    "-o".toList, "yaml".toList]
  let path := specFilePath filePath resourceName
  match sys.create path with
  | some e => ⟨some ("error creating file: ".toList ++ e), fs, []⟩
  | none =>
    let fs1 := fs.put path []
    let r := sys.run cmd
    match r.err with
    | some e => ⟨some e, fs1, [e ++ ": ".toList ++ r.stderr ++ "\n".toList]⟩
    | none =>
      match sys.writeString path r.stdout with
      | some (n, e) =>
        ⟨none, fs1.put path (r.stdout.take n),
          ["Error writing spec of ".toList ++ resourceType ++ "/".toList ++ resourceName ++
            " to file: ".toList ++ e]⟩
      | none => ⟨none, fs1.put path r.stdout, []⟩

/-- The function `WriteResourceDescToFile` (utils.go 46-72). -/
def WriteResourceDescToFile (sys : Sys) (fs : FS)
    (filePath ns resourceName resourceType : Str) : Res :=
  let cmd := ["kubectl".toList, "describe".toList, resourceType, resourceName, "-n".toList, ns]
  let path := descFilePath filePath resourceName
  match sys.create path with
  | some e => ⟨some ("error creating file: ".toList ++ e), fs, []⟩
  | none =>
    let fs1 := fs.put path []
    let r := sys.run cmd
    match r.err with
    | some e => ⟨some e, fs1, [e ++ ": ".toList ++ r.stderr ++ "\n".toList]⟩
    | none =>
      match sys.writeString path r.stdout with
      | some (n, e) =>
        ⟨none, fs1.put path (r.stdout.take n),
          ["Error writing description of ".toList ++ resourceType ++ "/".toList ++
            resourceName ++ " to file: ".toList ++ e]⟩
      | none => ⟨none, fs1.put path r.stdout, []⟩

/-- A delivery of the log stream: some bytes and the error that arrives with
the last of them. -/
structure Chunk where
  data : Str
  err : Option Str
deriving DecidableEq

/-- The open log stream (`io.ReadCloser`): the deliveries still to come. Once
they are used up every read reports end of stream. -/
abbrev LogStream := List Chunk

/-- One `logs.Read(buf)` with a buffer of `bufLen` bytes: at most `bufLen`
bytes of the next delivery, the remainder stays for the following reads. -/
def LogStream.Read (bufLen : Nat) : LogStream → (Str × Option Str) × LogStream
  | [] => (([], some "EOF".toList), [])
  | c :: rest =>
    if c.data.length ≤ bufLen then ((c.data, c.err), rest)
    else ((c.data.take bufLen, none), ⟨c.data.drop bufLen, c.err⟩ :: rest)

/-- The read loop of `GetPodLogs` (utils.go 100-114), `fuel` iterations at
most; `none` when the iterations run out. -/
def readLoop : Nat → LogStream → Str → Option (Except Str Str)
  | 0, _, _ => none
  | fuel + 1, logs, result =>
    match LogStream.Read 2000 logs with
    | ((buf, err), logs1) =>
      if buf.length = 0 then
        match err with
        | none => readLoop fuel logs1 result
        | some e => if e = "EOF".toList then some (.ok result) else some (.error e)
      else readLoop fuel logs1 (result ++ buf)

/-- A stream that ends normally: no delivery carries an error, except that
the last one may carry `EOF`. -/
def endsNormally : LogStream → Bool
  | [] => true
  | c :: rest =>
    (c.err == none || (rest.isEmpty && c.err == some "EOF".toList)) && endsNormally rest

/-- All the bytes a stream delivers, in order. -/
def LogStream.bytes (logs : LogStream) : Str := logs.flatMap (fun c => c.data)

/-- A bound on the number of reads that drain a stream. -/
def readCost (logs : LogStream) : Nat := (logs.map (fun c => c.data.length + 1)).sum

/-- Go `v1.PodLogOptions`, the fields that are set. -/
structure PodLogOptions where
  Container : Str
  TailLines : Option Int
  Previous : Bool
deriving DecidableEq

/-- The function `GetPodLogs` (utils.go 75-117): the logs and the returned error; `none`
when the read loop is out of iterations. `getLogs` stands for
`clientset.CoreV1().Pods(ns).GetLogs(pod, opts).Stream(ctx)`. -/
def GetPodLogs (getLogs : Str → Str → PodLogOptions → Except Str LogStream) (fuel : Nat)
    (ns podName containerName : Str) (tailLines : Int) (previous : Bool) :
    Option (Str × Option Str) :=
  let podLogOpts : PodLogOptions :=
    ⟨containerName, if tailLines > 0 then some tailLines else none, previous⟩
  match getLogs ns podName podLogOpts with
  | .error e =>
    if Contains e "previous terminated container".toList then some ([], none)
    else some ([], some ("error in getting logs: ".toList ++ e))
  | .ok logs =>
    match readLoop fuel logs [] with
    | none => none
    | some (.ok result) => some (result, none)
    | some (.error e) => some ([], some e)

/-- The function `WriteLogsToFile` (utils.go 120-134). -/
def WriteLogsToFile (sys : Sys) (fs : FS)
    (outputDir podName containerName logs containerType : Str) : Res :=
  let filePath := logFilePath outputDir podName containerName containerType
  match sys.create filePath with
  | some e => ⟨some ("error creating file: ".toList ++ e), fs, []⟩
  | none =>
    let fs1 := fs.put filePath []
    match sys.writeString filePath logs with
    | some (n, e) =>
      ⟨some ("error writing logs to file: ".toList ++ e), fs1.put filePath (logs.take n), []⟩
    | none => ⟨none, fs1.put filePath logs, []⟩

/-- The function `WriteResourceListToFile` (utils.go 137-160); `os.WriteFile` opens the
file (creating or truncating it) and writes the bytes. -/
def WriteResourceListToFile (sys : Sys) (fs : FS) (resource ns filePath : Str) : FS × List Str :=
  let cmd :=
    if resource = [] then ["kubectl".toList, "get".toList, resource, "--all-namespaces".toList]
    else ["kubectl".toList, "get".toList, resource, "-n".toList, ns]
  let r := sys.run cmd
  let out1 : List Str :=
    match r.err with
    | some e => [e ++ ": ".toList ++ r.stderr ++ "\n".toList]
    | none => []
  match sys.create filePath with
  | some e =>
    (fs, out1 ++ ["Error writing ".toList ++ resource ++ " list to file: ".toList ++ e ++
      "\n".toList])
  | none =>
    match sys.writeString filePath r.stdout with
    | some (n, e) =>
      (fs.put filePath (r.stdout.take n),
        out1 ++ ["Error writing ".toList ++ resource ++ " list to file: ".toList ++ e ++
          "\n".toList])
    | none =>
      (fs.put filePath r.stdout,
        out1 ++ ["Successfully wrote ".toList ++ resource ++ " list to ".toList ++ filePath ++
          "\n".toList])

/-! ## `main`: the orchestrator -/

def jobResource : Str := "job".toList
def podResource : Str := "pod".toList
def cmResource : Str := "configmap".toList
def resourceQuotaResource : Str := "resourcequota".toList
def prometheusResource : Str := "prometheus".toList
def alertmanagerResource : Str := "alertmanager".toList
def statefulSetResource : Str := "statefulset".toList
def deploymentResource : Str := "deployment".toList
def networkPolicyResource : Str := "networkpolicy".toList
def pvcResource : Str := "persistentvolumeclaim".toList

/-- The command-line flags. -/
structure Flags where
  namespaceValue : Str
  outputDir : Str
  tailLines : Int
  kubeconfigPath : Str

/-- A container of a pod spec. -/
structure Container where
  Name : Str
deriving DecidableEq

/-- A pod as listed: its name, init containers and containers. -/
structure Pod where
  Name : Str
  InitContainers : List Container
  Containers : List Container
deriving DecidableEq

/-- A listed object of any other kind: only its name is used. -/
structure Obj where
  Name : Str
deriving DecidableEq

/-- A listed service. -/
structure Service where
  Name : Str
  Namespace : Str
deriving DecidableEq

/-- What the list calls of `main` returned (main.go 140-186). -/
structure Snapshot where
  pods : List Pod
  jobs : List Obj
  cms : List Obj
  statefulSets : List Obj
  deployments : List Obj
  quotaList : List Obj
  networkPolicyList : List Obj
  pvcList : List Obj

/-- The process environment and the cluster. Each `listX ns` is the result of
the typed client list call in namespace `ns`. -/
structure World where
  envKubeconfig : Str
  buildConfig : Str → Option Str
  newForConfig : Option Str
  mkdirAll : Str → Option Str
  listServices : Except Str (List Service)
  listPods : Str → Except Str (List Pod)
  listJobs : Str → Except Str (List Obj)
  listConfigMaps : Str → Except Str (List Obj)
  listStatefulSets : Str → Except Str (List Obj)
  listDeployments : Str → Except Str (List Obj)
  listResourceQuotas : Str → Except Str (List Obj)
  listNetworkPolicies : Str → Except Str (List Obj)
  listPersistentVolumeClaims : Str → Except Str (List Obj)
  getLogs : Str → Str → PodLogOptions → Except Str LogStream
  sys : Sys

/-- The bundle root (main.go 65-70). -/
def baseDir (outputDir : Str) : Str :=
  if outputDir = [] then "/tmp/pxb-diags-output".toList
  else Join [outputDir, "pxb-diags-output".toList]

def jobDescribePath (baseDir : Str) : Str := Join [baseDir, "job/describe".toList]
def jobSpecPath (baseDir : Str) : Str := Join [baseDir, "job/spec".toList]
def logsPath (baseDir : Str) : Str := Join [baseDir, "logs".toList]
def logsPreviousPath (baseDir : Str) : Str := Join [baseDir, "logs-previous".toList]
def podDescribePath (baseDir : Str) : Str := Join [baseDir, "pod/describe".toList]
def podSpecPath (baseDir : Str) : Str := Join [baseDir, "pod/spec".toList]
def resourceQuotaPath (baseDir : Str) : Str := Join [baseDir, "resourcequota".toList]
def networkPolicyPath (baseDir : Str) : Str := Join [baseDir, "networkpolicy".toList]
def cmPath (baseDir : Str) : Str := Join [baseDir, "configmap".toList]
def statefulSetSpecPath (baseDir : Str) : Str := Join [baseDir, "statefulset/spec".toList]
def statefulSetDescribePath (baseDir : Str) : Str := Join [baseDir, "statefulset/describe".toList]
def podListPath (baseDir : Str) : Str := Join [baseDir, "pod_list.txt".toList]
def prometheusListPath (baseDir : Str) : Str := Join [baseDir, "prometheus_list.txt".toList]
def alertmanagerListPath (baseDir : Str) : Str := Join [baseDir, "alertmanager_list.txt".toList]
def deploymentSpecPath (baseDir : Str) : Str := Join [baseDir, "deployment/spec".toList]
def deploymentDescribePath (baseDir : Str) : Str := Join [baseDir, "deployment/describe".toList]
def pvcSpecPath (baseDir : Str) : Str := Join [baseDir, "pvc/spec".toList]
def pvcDescribePath (baseDir : Str) : Str := Join [baseDir, "pvc/describe".toList]

/-- The `directories` slice (main.go 93-109). -/
def directories (baseDir : Str) : List Str :=
  [jobDescribePath baseDir, jobSpecPath baseDir, logsPath baseDir, logsPreviousPath baseDir,
   podDescribePath baseDir, podSpecPath baseDir, networkPolicyPath baseDir, cmPath baseDir,
   statefulSetSpecPath baseDir, statefulSetDescribePath baseDir, deploymentSpecPath baseDir,
   deploymentDescribePath baseDir, resourceQuotaPath baseDir, pvcSpecPath baseDir,
   pvcDescribePath baseDir]

/-- The directory loop (main.go 111-117): the directories created, and the
directory and error at which the loop stopped. -/
def makeDirs (mkdirAll : Str → Option Str) : List Str → List Str × Option (Str × Str)
  | [] => ([], none)
  | dir :: rest =>
    match mkdirAll dir with
    | some e => ([], some (dir, e))
    | none => ((dir :: (makeDirs mkdirAll rest).1), (makeDirs mkdirAll rest).2)

/-- A goroutine launched by `main`, given by the call it makes: a Spec
goroutine calls `WriteResourceSpecToFile`, a Description goroutine
`WriteResourceDescToFile`, a log goroutine `GetPodLogs` and then
`WriteLogsToFile`. The messages of a Spec or Description goroutine depend on
the resource type only (`specErrPre`, `specOkPre`, `descErrPre`, `descOkPre`). -/
inductive Task
  | spec (filePath ns name resourceType : Str)
  | desc (filePath ns name resourceType : Str)
  | log (outputDir ns podName containerName : Str) (tailLines : Int)
      (previous init : Bool)
deriving DecidableEq

/-- The text before the name in the error message of the Spec goroutine for
a resource type (main.go 197, 211, 225, 239, 265, 291, 317, 429). -/
def specErrPre (resourceType : Str) : Str :=
  if resourceType = networkPolicyResource then
    "Error writing network policy spec to file for network policy ".toList
  else if resourceType = resourceQuotaResource then
    "Error writing resource quota spec to file for resource quota ".toList
  else if resourceType = cmResource then
    "Error writing configmap spec to file for configmap ".toList
  else if resourceType = deploymentResource then
    "Error writing deployment spec to file for deployment ".toList
  else if resourceType = pvcResource then "Error writing pvc spec to file for pvc ".toList
  else if resourceType = statefulSetResource then
    "Error writing stateful set spec to file for stateful set ".toList
  else if resourceType = jobResource then "Error writing job spec to file for job ".toList
  else "Error writing pod spec to file for pod ".toList

/-- The text before the name in the success message of the Spec goroutine
for a resource type (main.go 199, 213, 227, 241, 267, 293, 319, 431). -/
def specOkPre (resourceType : Str) : Str :=
  if resourceType = networkPolicyResource then
    "Network Policy spec written to file for NetworkPolicy: ".toList
  else if resourceType = resourceQuotaResource then
    "Resource Quota spec written to file for ResourceQuota: ".toList
  else if resourceType = cmResource then "ConfigMap spec written to file for ConfigMap: ".toList
  else if resourceType = deploymentResource then
    "Deployment spec written to file for Deployment: ".toList
  else if resourceType = pvcResource then "PVC spec written to file for PVC: ".toList
  else if resourceType = statefulSetResource then
    "Stateful set spec written to file for StatefulSet: ".toList
  else if resourceType = jobResource then "Job spec written to file for Job: ".toList
  else "Pod spec written to file for Pod: ".toList

/-- The text before the name in the error message of the Description
goroutine for a resource type (main.go 251, 277, 303, 329, 441). -/
def descErrPre (resourceType : Str) : Str :=
  if resourceType = deploymentResource then
    "Error writing deployment description to file for deployment ".toList
  else if resourceType = pvcResource then "Error writing pvc description to file for pvc ".toList
  else if resourceType = statefulSetResource then
    "Error writing stateful set description to file for stateful set ".toList
  else if resourceType = jobResource then
    "Error writing job description to file for job ".toList
  else "Error writing pod spec to file for pod ".toList

/-- The text before the name in the success message of the Description
goroutine for a resource type (main.go 253, 279, 305, 331, 443). -/
def descOkPre (resourceType : Str) : Str :=
  if resourceType = deploymentResource then
    "Deployment description written to file for Deployment: ".toList
  else if resourceType = pvcResource then "PVC description written to file for PVC: ".toList
  else if resourceType = statefulSetResource then
    "Stateful set description written to file for StatefulSet: ".toList
  else if resourceType = jobResource then "Job description written to file for Job: ".toList
  else "Pod Description written to file for Pod: ".toList

/-- The `containerType` argument of `WriteLogsToFile`. -/
def role (init : Bool) : Str :=
  if init then "init-container".toList else "container".toList

/-- The word for the container in the error messages of a log goroutine. -/
def roleWord (init : Bool) : Str :=
  if init then "initContainer".toList else "container".toList

/-- The word for the container in the success message of a log goroutine. -/
def roleTitle (init : Bool) : Str :=
  if init then "InitContainer".toList else "Container".toList

/-- The wait group counter and the goroutines launched so far. -/
structure Sched where
  wg : Nat
  tasks : List Task

/-- The statements `wg.Add(1); go func(...)` with body `t`. -/
def Sched.go (s : Sched) (t : Task) : Sched := ⟨s.wg + 1, s.tasks ++ [t]⟩

/-- The goroutine of main.go 192-201. -/
def npSpecTask (base ns : Str) (np : Obj) : Task :=
  .spec (networkPolicyPath base) ns np.Name networkPolicyResource

/-- The goroutine of main.go 206-215. -/
def quotaSpecTask (base ns : Str) (quota : Obj) : Task :=
  .spec (resourceQuotaPath base) ns quota.Name resourceQuotaResource

/-- The goroutine of main.go 220-229. -/
def cmSpecTask (base ns : Str) (cm : Obj) : Task :=
  .spec (cmPath base) ns cm.Name cmResource

/-- The goroutine of main.go 234-243. -/
def deploymentSpecTask (base ns : Str) (dep : Obj) : Task :=
  .spec (deploymentSpecPath base) ns dep.Name deploymentResource

/-- The goroutine of main.go 246-255. -/
def deploymentDescTask (base ns : Str) (dep : Obj) : Task :=
  .desc (deploymentDescribePath base) ns dep.Name deploymentResource

/-- The goroutine of main.go 260-269. -/
def pvcSpecTask (base ns : Str) (pvc : Obj) : Task :=
  .spec (pvcSpecPath base) ns pvc.Name pvcResource

/-- The goroutine of main.go 272-281. -/
def pvcDescTask (base ns : Str) (pvc : Obj) : Task :=
  .desc (pvcDescribePath base) ns pvc.Name pvcResource

/-- The goroutine of main.go 286-295. -/
def statefulSetSpecTask (base ns : Str) (ss : Obj) : Task :=
  .spec (statefulSetSpecPath base) ns ss.Name statefulSetResource

/-- The goroutine of main.go 298-307. -/
def statefulSetDescTask (base ns : Str) (ss : Obj) : Task :=
  .desc (statefulSetDescribePath base) ns ss.Name statefulSetResource

/-- The goroutine of main.go 312-321. -/
def jobSpecTask (base ns : Str) (job : Obj) : Task :=
  .spec (jobSpecPath base) ns job.Name jobResource

/-- The goroutine of main.go 324-333. -/
def jobDescTask (base ns : Str) (job : Obj) : Task :=
  .desc (jobDescribePath base) ns job.Name jobResource

/-- The goroutine of main.go 424-433. -/
def podSpecTask (base ns : Str) (pod : Pod) : Task :=
  .spec (podSpecPath base) ns pod.Name podResource

/-- The goroutine of main.go 436-445. -/
def podDescTask (base ns : Str) (pod : Pod) : Task :=
  .desc (podDescribePath base) ns pod.Name podResource

/-- The current-log goroutines (main.go 342-356 for init containers, 361-375
for containers). -/
def currentLogTask (base ns : Str) (tailLines : Int) (init : Bool) (pod : Pod)
    (c : Container) : Task :=
  .log (logsPath base) ns pod.Name c.Name tailLines false init

/-- The previous-log goroutines (main.go 381-398 for init containers, 403-420
for containers). -/
def previousLogTask (base ns : Str) (tailLines : Int) (init : Bool) (pod : Pod)
    (c : Container) : Task :=
  .log (logsPreviousPath base) ns pod.Name c.Name tailLines true init

/-- The body of the pod loop (main.go 337-446). -/
def podLoopBody (base ns : Str) (tailLines : Int) (s : Sched) (pod : Pod) : Sched :=
  let s := pod.InitContainers.foldl
    (fun s initContainer => s.go (currentLogTask base ns tailLines true pod initContainer)) s
  let s := pod.Containers.foldl
    (fun s container => s.go (currentLogTask base ns tailLines false pod container)) s
  let s := pod.InitContainers.foldl
    (fun s initContainer => s.go (previousLogTask base ns tailLines true pod initContainer)) s
  let s := pod.Containers.foldl
    (fun s container => s.go (previousLogTask base ns tailLines false pod container)) s
  let s := s.go (podSpecTask base ns pod)
  s.go (podDescTask base ns pod)

/-- The launch loops of `main` (main.go 188-446), in source order. -/
def collect (base ns : Str) (tailLines : Int) (snap : Snapshot) : Sched :=
  let s : Sched := ⟨0, []⟩
  let s := snap.networkPolicyList.foldl (fun s networkPolicy =>
    s.go (npSpecTask base ns networkPolicy)) s
  let s := snap.quotaList.foldl (fun s quota => s.go (quotaSpecTask base ns quota)) s
  let s := snap.cms.foldl (fun s cm => s.go (cmSpecTask base ns cm)) s
  let s := snap.deployments.foldl (fun s deployment =>
    (s.go (deploymentSpecTask base ns deployment)).go (deploymentDescTask base ns deployment)) s
  let s := snap.pvcList.foldl (fun s pvc =>
    (s.go (pvcSpecTask base ns pvc)).go (pvcDescTask base ns pvc)) s
  let s := snap.statefulSets.foldl (fun s statefulSet =>
    (s.go (statefulSetSpecTask base ns statefulSet)).go
      (statefulSetDescTask base ns statefulSet)) s
  let s := snap.jobs.foldl (fun s job =>
    (s.go (jobSpecTask base ns job)).go (jobDescTask base ns job)) s
  snap.pods.foldl (podLoopBody base ns tailLines) s

/-- The goroutines of one pod in launch order. -/
def podTasks (base ns : Str) (tailLines : Int) (pod : Pod) : List Task :=
  pod.InitContainers.map (currentLogTask base ns tailLines true pod) ++
  pod.Containers.map (currentLogTask base ns tailLines false pod) ++
  pod.InitContainers.map (previousLogTask base ns tailLines true pod) ++
  pod.Containers.map (previousLogTask base ns tailLines false pod) ++
  [podSpecTask base ns pod, podDescTask base ns pod]

/-- The goroutines of a run in launch order. -/
def collectTasks (base ns : Str) (tailLines : Int) (snap : Snapshot) : List Task :=
  snap.networkPolicyList.map (npSpecTask base ns) ++
  snap.quotaList.map (quotaSpecTask base ns) ++
  snap.cms.map (cmSpecTask base ns) ++
  snap.deployments.flatMap
    (fun d => [deploymentSpecTask base ns d, deploymentDescTask base ns d]) ++
  snap.pvcList.flatMap (fun p => [pvcSpecTask base ns p, pvcDescTask base ns p]) ++
  snap.statefulSets.flatMap
    (fun x => [statefulSetSpecTask base ns x, statefulSetDescTask base ns x]) ++
  snap.jobs.flatMap (fun j => [jobSpecTask base ns j, jobDescTask base ns j]) ++
  snap.pods.flatMap (podTasks base ns tailLines)

/-- The file a goroutine writes: the path its helper passes to `os.Create`. -/
def Task.target : Task → Str
  | .spec filePath _ name _ => specFilePath filePath name
  | .desc filePath _ name _ => descFilePath filePath name
  | .log outputDir _ podName containerName _ _ init =>
    logFilePath outputDir podName containerName (role init)

/-- The directory argument a goroutine passes to its helper. -/
def Task.dir : Task → Str
  | .spec filePath _ _ _ => filePath
  | .desc filePath _ _ _ => filePath
  | .log outputDir _ _ _ _ _ _ => outputDir

/-- The body of a goroutine: the file system afterwards and the lines it
prints; `none` when the read loop is out of iterations. -/
def Task.exec (w : World) (fuel : Nat) (fs : FS) : Task → Option (FS × List Str)
  | .spec filePath ns name resourceType =>
    let r := WriteResourceSpecToFile w.sys fs filePath ns name resourceType
    match r.err with
    | some e => some (r.fs, r.out ++ [specErrPre resourceType ++ name ++ ": ".toList ++ e])
    | none => some (r.fs, r.out ++ [specOkPre resourceType ++ name ++ "\n".toList])
  | .desc filePath ns name resourceType =>
    let r := WriteResourceDescToFile w.sys fs filePath ns name resourceType
    match r.err with
    | some e => some (r.fs, r.out ++ [descErrPre resourceType ++ name ++ ": ".toList ++ e])
    | none => some (r.fs, r.out ++ [descOkPre resourceType ++ name ++ "\n".toList])
  | .log outputDir ns podName containerName tailLines previous init =>
    match GetPodLogs w.getLogs fuel ns podName containerName tailLines previous with
    | none => none
    | some (_, some e) =>
      some (fs, ["Error getting logs for pod ".toList ++ podName ++ ", ".toList ++
        roleWord init ++ " ".toList ++ containerName ++ ": ".toList ++ e])
    | some (logs, none) =>
      if previous = true ∧ logs = [] then some (fs, [])
      else
        let r := WriteLogsToFile w.sys fs outputDir podName containerName logs (role init)
        match r.err with
        | some e =>
          some (r.fs, r.out ++ ["Error writing logs to file for pod ".toList ++ podName ++
            ", ".toList ++ roleWord init ++ " ".toList ++ containerName ++ ": ".toList ++ e])
        | none =>
          some (r.fs, r.out ++ ["Logs written to file for Pod: ".toList ++ podName ++
            ", ".toList ++ roleTitle init ++ ": ".toList ++ containerName ++ "\n".toList])

/-- How the process ends. -/
inductive Outcome
  | returned
  | exited (code : Nat)
  | panicked (msg : Str)
deriving DecidableEq

/-- The exit status of the process: 0 when `main` returns, the argument of
`os.Exit`, 2 after a Go panic. -/
def Outcome.status : Outcome → Nat
  | .returned => 0
  | .exited code => code
  | .panicked _ => 2

/-- A call of `WriteResourceListToFile` made by `main`. -/
structure ListCall where
  resource : Str
  ns : Str
  filePath : Str
deriving DecidableEq

/-- What one run of `main` did: the lines `main` itself printed, the
directories created, the kinds whose list call was made, the wait group
count, the goroutines launched, the list files written and the way the
process ended. -/
structure Run where
  stdout : List Str
  mkdirs : List Str
  listed : List Str
  wg : Nat
  tasks : List Task
  lists : List ListCall
  outcome : Outcome

/-- The search for the `px-backup` service (main.go 125-130). -/
def findNamespace : List Service → Str
  | [] => []
  | service :: rest =>
    if service.Name = "px-backup".toList then service.Namespace else findNamespace rest

/-- The list calls (main.go 140-186): the kinds whose list call was made, and
the snapshot or the error `main` panics with. -/
def listAll (w : World) (ns : Str) : List Str × Except Str Snapshot :=
  match w.listPods ns with
  | .error e => ([podResource], .error e)
  | .ok pods =>
  match w.listJobs ns with
  | .error e => ([podResource, jobResource], .error e)
  | .ok jobs =>
  match w.listConfigMaps ns with
  | .error e => ([podResource, jobResource, cmResource], .error e)
  | .ok cms =>
  match w.listStatefulSets ns with
  | .error e => ([podResource, jobResource, cmResource, statefulSetResource], .error e)
  | .ok statefulSets =>
  match w.listDeployments ns with
  | .error e =>
    ([podResource, jobResource, cmResource, statefulSetResource, deploymentResource], .error e)
  | .ok deployments =>
  match w.listResourceQuotas ns with
  | .error e =>
    ([podResource, jobResource, cmResource, statefulSetResource, deploymentResource,
      resourceQuotaResource], .error e)
  | .ok quotaList =>
  match w.listNetworkPolicies ns with
  | .error e =>
    ([podResource, jobResource, cmResource, statefulSetResource, deploymentResource,
      resourceQuotaResource, networkPolicyResource], .error e)
  | .ok networkPolicyList =>
  match w.listPersistentVolumeClaims ns with
  | .error e =>
    ([podResource, jobResource, cmResource, statefulSetResource, deploymentResource,
      resourceQuotaResource, networkPolicyResource, pvcResource], .error e)
  | .ok pvcList =>
    ([podResource, jobResource, cmResource, statefulSetResource, deploymentResource,
      resourceQuotaResource, networkPolicyResource, pvcResource],
     .ok ⟨pods, jobs, cms, statefulSets, deployments, quotaList, networkPolicyList, pvcList⟩)

/-- The last line `main` prints (main.go 454). -/
def completionLine (baseDir : Str) : Str :=
  "Resource gathering completed successfully and have been stored in ".toList ++ baseDir ++
    "\n".toList

/-- Namespace resolution (main.go 119-133): the line printed and the
namespace. When listing the services fails the error is printed and the
(empty) result is searched. -/
def resolveNamespace (f : Flags) (w : World) : List Str × Str :=
  if f.namespaceValue = [] then
    match w.listServices with
    | .error e => (["Error listing services: ".toList ++ e], [])
    | .ok services => ([], findNamespace services)
  else ([], f.namespaceValue)

/-- The part of `main` from the list calls on (main.go 140-455); `out1` and
`created` are what was printed and created before. -/
def discoverAndCollect (w : World) (base ns : Str) (tailLines : Int)
    (out1 created : List Str) : Run :=
  match listAll w ns with
  | (listed, .error e) => ⟨out1, created, listed, 0, [], [], .panicked e⟩
  | (listed, .ok snap) =>
    let s := collect base ns tailLines snap
    ⟨out1 ++ [completionLine base], created, listed, s.wg, s.tasks,
      [⟨podResource, ns, podListPath base⟩, ⟨prometheusResource, ns, prometheusListPath base⟩,
       ⟨alertmanagerResource, ns, alertmanagerListPath base⟩], .returned⟩

/-- The kubeconfig path (main.go 43-53): the flag, else the environment. -/
def kubeconfigOf (f : Flags) (w : World) : Str :=
  if f.kubeconfigPath ≠ [] then f.kubeconfigPath else w.envKubeconfig

/-- The line printed when there is no kubeconfig (main.go 50). -/
def kubeconfigLine : Str :=
  "Set KUBECONFIG environment variable or provide the path to the kubeconfig file\n".toList

/-- The line printed when no namespace was found (main.go 136). -/
def notFoundLine : Str :=
  ("Px-backup not found. Please load the px-backup deployed kubeconfig and " ++
    "provide the namespace\n").toList

/-- The function `main` (main.go 34-455). -/
def main (f : Flags) (w : World) : Run :=
  let kubeconfig := kubeconfigOf f w
  if kubeconfig = [] then
    ⟨[kubeconfigLine], [], [], 0, [], [], .exited 1⟩
  else
  match w.buildConfig kubeconfig with
  | some e => ⟨[], [], [], 0, [], [], .panicked e⟩
  | none =>
  match w.newForConfig with
  | some e => ⟨[], [], [], 0, [], [], .panicked e⟩
  | none =>
  let base := baseDir f.outputDir
  match makeDirs w.mkdirAll (directories base) with
  | (created, some (dir, e)) =>
    ⟨["Error creating directory ".toList ++ dir ++ ": ".toList ++ e ++ "\n".toList],
      created, [], 0, [], [], .returned⟩
  | (created, none) =>
  if (resolveNamespace f w).2 = [] then
    ⟨(resolveNamespace f w).1 ++ [notFoundLine], created, [], 0, [], [], .exited 1⟩
  else
    discoverAndCollect w base (resolveNamespace f w).2 f.tailLines (resolveNamespace f w).1
      created

/-! ## Vocabulary of the statements -/

/-- The kinds `main` lists, in the order of the list calls. -/
def trackedKinds : List Str :=
  [podResource, jobResource, cmResource, statefulSetResource, deploymentResource,
   resourceQuotaResource, networkPolicyResource, pvcResource]

/-- Whether a list result is an error. -/
def isError {α : Type} : Except Str α → Bool
  | .error _ => true
  | .ok _ => false

/-- Whether the list call for kind `kind` in namespace `ns` fails. -/
def World.listFails (w : World) (ns kind : Str) : Bool :=
  if kind = podResource then isError (w.listPods ns)
  else if kind = jobResource then isError (w.listJobs ns)
  else if kind = cmResource then isError (w.listConfigMaps ns)
  else if kind = statefulSetResource then isError (w.listStatefulSets ns)
  else if kind = deploymentResource then isError (w.listDeployments ns)
  else if kind = resourceQuotaResource then isError (w.listResourceQuotas ns)
  else if kind = networkPolicyResource then isError (w.listNetworkPolicies ns)
  else if kind = pvcResource then isError (w.listPersistentVolumeClaims ns)
  else false

/-- The names of the listed instances of a tracked kind. -/
def Snapshot.names (snap : Snapshot) (kind : Str) : List Str :=
  if kind = podResource then snap.pods.map (fun x => x.Name)
  else if kind = jobResource then snap.jobs.map (fun x => x.Name)
  else if kind = cmResource then snap.cms.map (fun x => x.Name)
  else if kind = statefulSetResource then snap.statefulSets.map (fun x => x.Name)
  else if kind = deploymentResource then snap.deployments.map (fun x => x.Name)
  else if kind = resourceQuotaResource then snap.quotaList.map (fun x => x.Name)
  else if kind = networkPolicyResource then snap.networkPolicyList.map (fun x => x.Name)
  else if kind = pvcResource then snap.pvcList.map (fun x => x.Name)
  else []

/-- The kinds for which `main` also collects a description. -/
def describedKinds : List Str :=
  [podResource, jobResource, statefulSetResource, deploymentResource, pvcResource]

/-- The instance names of the Spec goroutines for kind `kind`, in launch
order. -/
def specNames (tasks : List Task) (kind : Str) : List Str :=
  tasks.filterMap fun t =>
    match t with
    | .spec _ _ name resourceType => if resourceType = kind then some name else none
    | _ => none

/-- The instance names of the Description goroutines for kind `kind`, in
launch order. -/
def descNames (tasks : List Task) (kind : Str) : List Str :=
  tasks.filterMap fun t =>
    match t with
    | .desc _ _ name resourceType => if resourceType = kind then some name else none
    | _ => none

/-- The (pod, container, is-init) triples of the log goroutines with the
given `previous` flag, in launch order. -/
def logKeys (tasks : List Task) (previous : Bool) : List (Str × Str × Bool) :=
  tasks.filterMap fun t =>
    match t with
    | .log _ _ podName containerName _ prev init =>
      if prev = previous then some (podName, containerName, init) else none
    | _ => none

/-- The containers of a pod as the log loops visit them: init containers,
then containers. -/
def Pod.logKeys (pod : Pod) : List (Str × Str × Bool) :=
  pod.InitContainers.map (fun c => (pod.Name, c.Name, true)) ++
  pod.Containers.map (fun c => (pod.Name, c.Name, false))

/-- The directory of a kind under the bundle root (main.go 73-90). -/
def kindDir (kind : Str) : Str := if kind = pvcResource then "pvc".toList else kind

/-- The kinds without a description: their Spec files go directly into the
kind directory (main.go 79-81). -/
def specOnlyKinds : List Str := [cmResource, resourceQuotaResource, networkPolicyResource]

/-- The directory, relative to the bundle root, of the Spec files of a kind. -/
def specRel (kind : Str) : Str :=
  if kind ∈ specOnlyKinds then kind else kindDir kind ++ "/spec".toList

/-- The directory, relative to the bundle root, of the Description files of
a kind. -/
def descRel (kind : Str) : Str := kindDir kind ++ "/describe".toList

/-- The directory, relative to the bundle root, of the log files. -/
def logRel (previous : Bool) : Str :=
  if previous then "logs-previous".toList else "logs".toList

/-- The log file of the naming convention of the specification:
`<root>/logs/<pod>_<container>_<role>.log` for current logs and
`<root>/logs-previous/<pod>_<container>_<role>.log` for previous logs, with
role `init-container` for an init container and `container` otherwise. -/
def specLogPath (root : Str) (previous init : Bool) (pod container : Str) : Str :=
  root ++ (if previous then "/logs-previous/".toList else "/logs/".toList) ++ pod ++
    "_".toList ++ container ++ "_".toList ++
    (if init then "init-container".toList else "container".toList) ++ ".log".toList

/-- Go `filepath.Dir` on Unix: the path up to its last separator, cleaned. -/
def Dir (p : Str) : Str := Clean (p.reverse.dropWhile (fun c => c != '/')).reverse

/-- Directory `d` is a proper ancestor of path `p`: the elements of `p` are
those of `d` followed by at least one more. -/
def isAncestor (d p : Str) : Prop :=
  isRooted d = isRooted p ∧
  ∃ more, more ≠ [] ∧ cleanElems (isRooted p) p = more ++ cleanElems (isRooted d) d

/-- Where the goroutines of a run come from: the namespace, the directory
under the bundle root and the listed instance each one is made for. -/
def Shape (base ns : Str) (tailLines : Int) (snap : Snapshot) : Task → Prop
  | .spec filePath n name resourceType =>
    n = ns ∧ resourceType ∈ trackedKinds ∧ name ∈ snap.names resourceType ∧
    filePath = base ++ '/' :: specRel resourceType
  | .desc filePath n name resourceType =>
    n = ns ∧ resourceType ∈ describedKinds ∧ name ∈ snap.names resourceType ∧
    filePath = base ++ '/' :: descRel resourceType
  | .log outputDir n podName containerName tl previous init =>
    n = ns ∧ tl = tailLines ∧ outputDir = base ++ '/' :: logRel previous ∧
    ∃ pod ∈ snap.pods, pod.Name = podName ∧
      ∃ c ∈ (if init then pod.InitContainers else pod.Containers), c.Name = containerName

/-- A name that can stand in a file name of the bundle: it contains neither
the path separator nor the `_` that separates the parts of a log file name.
Kubernetes object and container names are of this form. -/
def ValidName (n : Str) : Prop := '/' ∉ n ∧ '_' ∉ n

/-- All listed names are valid. -/
def Snapshot.Valid (snap : Snapshot) : Prop :=
  (∀ kind ∈ trackedKinds, ∀ n ∈ snap.names kind, ValidName n) ∧
  ∀ pod ∈ snap.pods, ∀ c ∈ pod.InitContainers ++ pod.Containers, ValidName c.Name

/-- Names are unique within each kind, and container names within the init
containers and within the containers of each pod. -/
def Snapshot.Unique (snap : Snapshot) : Prop :=
  (∀ kind ∈ trackedKinds, (snap.names kind).Nodup) ∧
  ∀ pod ∈ snap.pods, (pod.InitContainers.map (fun c => c.Name)).Nodup ∧
    (pod.Containers.map (fun c => c.Name)).Nodup

/-- The kind a goroutine belongs to: its resource type, `pod` for the log
goroutines. -/
def Task.kind : Task → Str
  | .spec _ _ _ resourceType => resourceType
  | .desc _ _ _ resourceType => resourceType
  | .log _ _ _ _ _ _ _ => podResource

/-- The instance a goroutine is about: the resource name, the pod name for
the log goroutines. -/
def Task.subject : Task → Str
  | .spec _ _ name _ => name
  | .desc _ _ name _ => name
  | .log _ _ podName _ _ _ _ => podName

/-- The artifact a goroutine collects, as a number: Spec, Description,
current and previous logs of init containers and of containers. -/
def Task.artifact : Task → Nat
  | .spec _ _ _ _ => 0
  | .desc _ _ _ _ => 1
  | .log _ _ _ _ _ false true => 2
  | .log _ _ _ _ _ false false => 3
  | .log _ _ _ _ _ true true => 4
  | .log _ _ _ _ _ true false => 5

/-! ## Sample inputs -/

/-- The empty file system. -/
def emptyFS : FS := fun _ => none

/-- A system where files can be created and written and `kubectl` succeeds
with output `ok`. -/
def sysOk : Sys :=
  ⟨fun _ => none, fun _ => ⟨none, "ok".toList, []⟩, fun _ _ => none⟩

/-- A system where files can be created and `kubectl` fails. -/
def sysKubectlFails : Sys :=
  ⟨fun _ => none,
   fun _ => ⟨some "exit status 1".toList, [], "Error from server (NotFound)".toList⟩,
   fun _ _ => none⟩

/-- A cluster with one pod (an init container and a container), one job and
one config map, where every call succeeds. -/
def sampleWorld : World where
  envKubeconfig := "/root/.kube/config".toList
  buildConfig := fun _ => none
  newForConfig := none
  mkdirAll := fun _ => none
  listServices := .ok [⟨"px-backup".toList, "ns1".toList⟩]
  listPods := fun _ => .ok [⟨"p1".toList, [⟨"init-a".toList⟩], [⟨"main-b".toList⟩]⟩]
  listJobs := fun _ => .ok [⟨"j1".toList⟩]
  listConfigMaps := fun _ => .ok [⟨"c1".toList⟩]
  listStatefulSets := fun _ => .ok []
  listDeployments := fun _ => .ok []
  listResourceQuotas := fun _ => .ok []
  listNetworkPolicies := fun _ => .ok []
  listPersistentVolumeClaims := fun _ => .ok []
  getLogs := fun _ _ _ => .ok [⟨"hello".toList, none⟩, ⟨" world".toList, some "EOF".toList⟩]
  sys := sysOk

/-- The flags `-namespace ns1 -output-dir out -tail-lines 50`. -/
def sampleFlags : Flags := ⟨"ns1".toList, "out".toList, 50, []⟩

/-- The sample cluster with a failing job list call. -/
def jobListFailsWorld : World :=
  { sampleWorld with listJobs := fun _ => .error "jobs is forbidden".toList }

/-- The sample cluster on a read-only output directory. -/
def readOnlyWorld : World :=
  { sampleWorld with mkdirAll := fun _ => some "read-only file system".toList }

/-- The sample cluster where no container has a previous instance. -/
def noPreviousWorld : World :=
  { sampleWorld with
    getLogs := fun _ _ opts =>
      if opts.Previous then
        .error "previous terminated container main-b in pod p1 not found".toList
      else .ok [⟨"hello".toList, none⟩] }

/-- A log stream of three deliveries: an empty read, 2500 bytes at once (more
than the buffer holds) and a last one that arrives together with `EOF`. -/
def sampleStream : LogStream :=
  [⟨[], none⟩, ⟨List.replicate 2500 'x', none⟩, ⟨"end".toList, some "EOF".toList⟩]

/-- A cluster whose names are unique within each kind and within each pod
but are not Kubernetes names: two pods `a_b` and `a` with containers `c` and
`b_c`, and two config maps `x` and `./x`. -/
def oddNamesWorld : World :=
  { sampleWorld with
    listPods := fun _ =>
      .ok [⟨"a_b".toList, [], [⟨"c".toList⟩]⟩, ⟨"a".toList, [], [⟨"b_c".toList⟩]⟩]
    listConfigMaps := fun _ => .ok [⟨"x".toList⟩, ⟨"./x".toList⟩] }

/-- The snapshot listed in the sample cluster. -/
def sampleSnapshot : Snapshot :=
  ⟨[⟨"p1".toList, [⟨"init-a".toList⟩], [⟨"main-b".toList⟩]⟩], [⟨"j1".toList⟩],
    [⟨"c1".toList⟩], [], [], [], [], []⟩

/-- The snapshot listed in the cluster with the odd names. -/
def oddNamesSnapshot : Snapshot :=
  ⟨[⟨"a_b".toList, [], [⟨"c".toList⟩]⟩, ⟨"a".toList, [], [⟨"b_c".toList⟩]⟩], [⟨"j1".toList⟩],
    [⟨"x".toList⟩, ⟨"./x".toList⟩], [], [], [], [], []⟩

/-- A system where files can be created and `kubectl` succeeds with output
`kind: ConfigMap`, but every write to a file fails after 4 bytes (the disk
is full). -/
def sysWriteFails : Sys :=
  ⟨fun _ => none, fun _ => ⟨none, "kind: ConfigMap".toList, []⟩,
   fun _ _ => some (4, "no space left on device".toList)⟩

/-- The sample cluster on a full disk. -/
def diskFullWorld : World := { sampleWorld with sys := sysWriteFails }

/-! ## Lemmas on splitting and joining -/

theorem splitSlash_ne_nil (p : Str) : splitSlash p ≠ [] := by
  induction p with
  | nil => simp [splitSlash]
  | cons c cs ih =>
    unfold splitSlash
    split
    · simp
    · split
      · simp
      · simp

theorem splitSlash_append_slash (a b : Str) :
    splitSlash (a ++ '/' :: b) = splitSlash a ++ splitSlash b := by
  induction a with
  | nil => simp [splitSlash]
  | cons c cs ih =>
    by_cases hc : c = '/'
    · simp [splitSlash, hc, ih]
    · have h1 : splitSlash (c :: (cs ++ '/' :: b)) =
          match splitSlash (cs ++ '/' :: b) with
          | [] => [[c]]
          | w :: ws => (c :: w) :: ws := by
        rw [splitSlash]; simp [hc]
      have h2 : splitSlash (c :: cs) =
          match splitSlash cs with
          | [] => [[c]]
          | w :: ws => (c :: w) :: ws := by
        rw [splitSlash]; simp [hc]
      rw [List.cons_append, h1, h2, ih]
      cases hs : splitSlash cs with
      | nil => exact absurd hs (splitSlash_ne_nil cs)
      | cons w ws => simp

theorem splitSlash_of_noSlash (f : Str) (h : '/' ∉ f) : splitSlash f = [f] := by
  induction f with
  | nil => simp [splitSlash]
  | cons c cs ih =>
    have hc : c ≠ '/' := fun e => h (by simp [e])
    have hcs : '/' ∉ cs := fun e => h (List.mem_cons_of_mem _ e)
    rw [splitSlash]; simp [hc, ih hcs]

theorem noSlash_of_mem_splitSlash (p c : Str) (h : c ∈ splitSlash p) : '/' ∉ c := by
  induction p generalizing c with
  | nil => simp [splitSlash] at h; simp [h]
  | cons x xs ih =>
    by_cases hx : x = '/'
    · rw [splitSlash] at h
      simp [hx] at h
      rcases h with h | h
      · simp [h]
      · exact ih c h
    · rw [splitSlash] at h
      simp only [hx, if_false] at h
      cases hs : splitSlash xs with
      | nil => exact absurd hs (splitSlash_ne_nil xs)
      | cons w ws =>
        rw [hs] at h
        simp at h
        rcases h with h | h
        · have hw : '/' ∉ w := ih w (by simp [hs])
          subst h
          intro hm
          rcases List.mem_cons.mp hm with e | e
          · exact hx e.symm
          · exact hw e
        · exact ih c (by simp [hs, h])

theorem joinSlash_cons_cons (c d : Str) (cs : List Str) :
    joinSlash (c :: d :: cs) = c ++ '/' :: joinSlash (d :: cs) := rfl

theorem joinSlash_append (xs ys : List Str) (hx : xs ≠ []) (hy : ys ≠ []) :
    joinSlash (xs ++ ys) = joinSlash xs ++ '/' :: joinSlash ys := by
  induction xs with
  | nil => exact absurd rfl hx
  | cons c cs ih =>
    cases cs with
    | nil =>
      cases ys with
      | nil => exact absurd rfl hy
      | cons y ys => simp [joinSlash]
    | cons d ds =>
      have := ih (by simp)
      simp only [List.cons_append] at this ⊢
      rw [joinSlash_cons_cons, this, joinSlash_cons_cons]
      simp

theorem splitSlash_joinSlash (cs : List Str) (hne : cs ≠ [])
    (h : ∀ c ∈ cs, '/' ∉ c) : splitSlash (joinSlash cs) = cs := by
  induction cs with
  | nil => exact absurd rfl hne
  | cons c cs ih =>
    cases cs with
    | nil => simpa [joinSlash] using splitSlash_of_noSlash c (h c (by simp))
    | cons d ds =>
      rw [joinSlash_cons_cons, splitSlash_append_slash,
        splitSlash_of_noSlash c (h c (by simp)),
        ih (by simp) (fun x hx => h x (List.mem_cons_of_mem _ hx))]
      simp

/-! ## Lemmas on `filepath.Clean` -/

theorem cleanStep_good (r : Bool) (st : List Str) (c : Str)
    (hst : Good r st) (hc : '/' ∉ c) : Good r (cleanStep r st c) := by
  unfold cleanStep
  split
  · exact hst
  · rename_i h1
    push_neg at h1
    split
    · rename_i h2
      cases st with
      | nil =>
        cases r with
        | true => simp [Good]
        | false =>
          subst h2
          simp [Good, GoodElem]
      | cons t rest =>
        simp only
        split
        · rename_i h3
          subst h2 h3
          refine ⟨⟨by simp, by simp, by simp⟩,
            fun _ => ⟨?_, Or.inr ⟨rest, rfl⟩⟩, hst⟩
          exact (hst.2.1 rfl).1
        · exact hst.2.2
    · rename_i h2
      exact ⟨⟨h1.1, h1.2, hc⟩, fun e => absurd e h2, hst⟩

theorem cleanStep_of_good (r : Bool) (st : List Str) (c : Str)
    (h : Good r (c :: st)) : cleanStep r st c = c :: st := by
  obtain ⟨⟨h1, h2, _⟩, h4, _⟩ := h
  unfold cleanStep
  rw [if_neg (by push_neg; exact ⟨h1, h2⟩)]
  split
  · rename_i h5
    obtain ⟨hr, hs⟩ := h4 h5
    rcases hs with hs | ⟨rest, hs⟩
    · subst hs; simp [hr]
    · subst hs; simp
  · rfl

theorem foldl_cleanStep_good (r : Bool) (cs : List Str) (st : List Str)
    (hst : Good r st) (hcs : ∀ c ∈ cs, '/' ∉ c) :
    Good r (cs.foldl (cleanStep r) st) := by
  induction cs generalizing st with
  | nil => exact hst
  | cons c cs ih =>
    exact ih _ (cleanStep_good r st c hst (hcs c (by simp)))
      (fun x hx => hcs x (List.mem_cons_of_mem _ hx))

theorem cleanElems_good (r : Bool) (p : Str) : Good r (cleanElems r p) :=
  foldl_cleanStep_good r _ [] trivial (fun c hc => noSlash_of_mem_splitSlash p c hc)

theorem good_noSlash (r : Bool) (st : List Str) (h : Good r st) :
    ∀ c ∈ st, '/' ∉ c := by
  induction st with
  | nil => simp
  | cons c st ih =>
    intro x hx
    rcases List.mem_cons.mp hx with e | e
    · subst e; exact h.1.2.2
    · exact ih h.2.2 x e

theorem foldl_cleanStep_reverse (r : Bool) (st : List Str) (h : Good r st) :
    st.reverse.foldl (cleanStep r) [] = st := by
  induction st with
  | nil => rfl
  | cons c st ih =>
    rw [List.reverse_cons, List.foldl_append, ih h.2.2]
    exact cleanStep_of_good r st c h

theorem cleanElems_append_slash (r : Bool) (p q : Str) :
    cleanElems r (p ++ '/' :: q) = (splitSlash q).foldl (cleanStep r) (cleanElems r p) := by
  unfold cleanElems
  rw [splitSlash_append_slash, List.foldl_append]

theorem isRooted_append (p q : Str) (hp : p ≠ []) : isRooted (p ++ q) = isRooted p := by
  cases p with
  | nil => exact absurd rfl hp
  | cons c cs =>
    by_cases hc : c = '/'
    · subst hc; rfl
    · simp [isRooted, hc]

theorem isRooted_joinSlash (c : Str) (cs : List Str) (h : GoodElem c) :
    isRooted (joinSlash (c :: cs)) = false := by
  obtain ⟨h1, _, h3⟩ := h
  cases c with
  | nil => exact absurd rfl h1
  | cons x xs =>
    have hx : x ≠ '/' := fun e => h3 (by simp [e])
    cases cs with
    | nil => simp [joinSlash, isRooted, hx]
    | cons d ds => simp [joinSlash, isRooted, hx]

theorem good_goodElem (r : Bool) (st : List Str) (h : Good r st) :
    ∀ c ∈ st, GoodElem c := by
  induction st with
  | nil => simp
  | cons c st ih =>
    intro x hx
    rcases List.mem_cons.mp hx with e | e
    · subst e; exact h.1
    · exact ih h.2.2 x e

theorem joinSlash_ne_nil (c : Str) (cs : List Str) (h : c ≠ []) :
    joinSlash (c :: cs) ≠ [] := by
  cases cs with
  | nil => simpa [joinSlash] using h
  | cons d ds => simp [joinSlash]

theorem render_ne_nil (r : Bool) (st : List Str) (h : Good r st) : render r st ≠ [] := by
  unfold render
  split
  · simp
  · split
    · simp
    · have hg := good_goodElem _ _ h
      cases hrev : st.reverse with
      | nil =>
        rename_i h3
        exact absurd (List.reverse_eq_nil_iff.mp hrev) h3
      | cons d ds =>
        have hd : d ∈ st := List.mem_reverse.mp (by rw [hrev]; simp)
        exact joinSlash_ne_nil d ds (hg d hd).1

theorem Clean_ne_nil (p : Str) : Clean p ≠ [] := by
  unfold Clean
  split
  · simp
  · exact render_ne_nil _ _ (cleanElems_good _ p)

theorem isRooted_render (r : Bool) (st : List Str) (h : Good r st) :
    isRooted (render r st) = r := by
  unfold render
  cases r with
  | true => simp [isRooted]
  | false =>
    simp only [Bool.false_eq_true, if_false]
    split
    · rfl
    · have hg := good_goodElem _ _ h
      cases hrev : st.reverse with
      | nil =>
        rename_i h3
        exact absurd (List.reverse_eq_nil_iff.mp hrev) h3
      | cons d ds =>
        have hd : d ∈ st := List.mem_reverse.mp (by rw [hrev]; simp)
        exact isRooted_joinSlash d ds (hg d hd)

theorem cleanElems_render (r : Bool) (st : List Str) (h : Good r st) :
    cleanElems r (render r st) = st := by
  have hns : ∀ c ∈ st.reverse, '/' ∉ c := fun c hc =>
    good_noSlash r st h c (List.mem_reverse.mp hc)
  unfold render
  cases r with
  | true =>
    simp only [if_true]
    by_cases hst : st = []
    · subst hst; rfl
    · have hne : st.reverse ≠ [] := fun e => hst (List.reverse_eq_nil_iff.mp e)
      unfold cleanElems
      rw [splitSlash, if_pos rfl, splitSlash_joinSlash _ hne hns, List.foldl_cons]
      have : cleanStep true [] [] = [] := rfl
      rw [this]
      exact foldl_cleanStep_reverse true st h
  | false =>
    simp only [Bool.false_eq_true, if_false]
    by_cases hst : st = []
    · subst hst; rfl
    · have hne : st.reverse ≠ [] := fun e => hst (List.reverse_eq_nil_iff.mp e)
      rw [if_neg hst]
      unfold cleanElems
      rw [splitSlash_joinSlash _ hne hns]
      exact foldl_cleanStep_reverse false st h

theorem Clean_eq_render (p : Str) (hp : p ≠ []) :
    Clean p = render (isRooted p) (cleanElems (isRooted p) p) := by
  unfold Clean; rw [if_neg hp]

theorem isRooted_Clean (p : Str) (hp : p ≠ []) : isRooted (Clean p) = isRooted p := by
  rw [Clean_eq_render p hp]
  exact isRooted_render _ _ (cleanElems_good _ p)

theorem cleanElems_Clean (p : Str) (hp : p ≠ []) :
    cleanElems (isRooted p) (Clean p) = cleanElems (isRooted p) p := by
  rw [Clean_eq_render p hp]
  exact cleanElems_render _ _ (cleanElems_good _ p)

theorem Clean_idem (p : Str) : Clean (Clean p) = Clean p := by
  by_cases hp : p = []
  · subst hp; rfl
  · rw [Clean_eq_render (Clean p) (Clean_ne_nil p), isRooted_Clean p hp,
      cleanElems_Clean p hp, ← Clean_eq_render p hp]

/-- Joining onto a cleaned path is joining onto the path itself. -/
theorem Clean_Clean_append (p q : Str) (hp : p ≠ []) :
    Clean (Clean p ++ '/' :: q) = Clean (p ++ '/' :: q) := by
  have h1 : Clean p ++ '/' :: q ≠ [] := by simp
  have h2 : p ++ '/' :: q ≠ [] := by simp
  rw [Clean_eq_render _ h1, Clean_eq_render _ h2,
    isRooted_append _ _ (Clean_ne_nil p), isRooted_append _ _ hp, isRooted_Clean p hp,
    cleanElems_append_slash, cleanElems_append_slash, cleanElems_Clean p hp]

theorem cleanStep_plain (r : Bool) (st : List Str) (f : Str) (hf : Plain f) :
    cleanStep r st f = f :: st := by
  obtain ⟨h1, h2, h3, _⟩ := hf
  unfold cleanStep
  rw [if_neg (by push_neg; exact ⟨h1, h2⟩), if_neg h3]

theorem cleanElems_append_plain (r : Bool) (p f : Str) (hf : Plain f) :
    cleanElems r (p ++ '/' :: f) = f :: cleanElems r p := by
  rw [cleanElems_append_slash, splitSlash_of_noSlash f hf.2.2.2]
  exact cleanStep_plain r _ f hf

theorem render_cons (r : Bool) (f c : Str) (st : List Str) :
    render r (f :: c :: st) = render r (c :: st) ++ '/' :: f := by
  unfold render
  have h : joinSlash (f :: c :: st).reverse = joinSlash (c :: st).reverse ++ '/' :: f := by
    rw [List.reverse_cons f, joinSlash_append _ _ (by simp) (by simp)]
    rfl
  cases r with
  | true => simp only [if_true]; rw [h]; rfl
  | false => simp only [Bool.false_eq_true, if_false]; rw [if_neg (by simp), if_neg (by simp), h]

/-- Appending an ordinary name to a cleaned directory is plain concatenation,
and the result is again a cleaned directory. -/
theorem CleanDir_append (d f : Str) (hd : CleanDir d) (hf : Plain f) :
    Clean (d ++ '/' :: f) = d ++ '/' :: f ∧ CleanDir (d ++ '/' :: f) := by
  obtain ⟨hne, hcl, c, st, hc, hel⟩ := hd
  have h2 : d ++ '/' :: f ≠ [] := by simp
  have h3 : Clean (d ++ '/' :: f) = d ++ '/' :: f := by
    rw [Clean_eq_render _ h2, isRooted_append _ _ hne, cleanElems_append_plain _ _ _ hf, hel,
      render_cons, ← hel, ← Clean_eq_render d hne, hcl]
  refine ⟨h3, h2, h3, f, c :: st, hf, ?_⟩
  rw [isRooted_append _ _ hne, cleanElems_append_plain _ _ _ hf, hel]

theorem Join_pair (d f : Str) (hd : d ≠ []) : Join [d, f] = Clean (d ++ '/' :: f) := by
  simp [Join, hd, joinSlash]

theorem CleanDir_Join (d f : Str) (hd : CleanDir d) (hf : Plain f) :
    Join [d, f] = d ++ '/' :: f ∧ CleanDir (d ++ '/' :: f) := by
  rw [Join_pair d f hd.1]
  exact CleanDir_append d f hd hf

/-- Cleaning a path whose last element is an ordinary name gives a cleaned
directory. -/
theorem CleanDir_Clean_append (p f : Str) (hp : p ≠ []) (hf : Plain f) :
    CleanDir (Clean (p ++ '/' :: f)) := by
  have h2 : p ++ '/' :: f ≠ [] := by simp
  refine ⟨Clean_ne_nil _, Clean_idem _, f, cleanElems (isRooted p) p, hf, ?_⟩
  rw [isRooted_Clean _ h2, cleanElems_Clean _ h2, isRooted_append _ _ hp,
    cleanElems_append_plain _ _ _ hf]

/-! ## The bundle layout -/

theorem baseDir_cleanDir (outputDir : Str) : CleanDir (baseDir outputDir) := by
  unfold baseDir
  split
  · refine ⟨by decide, by decide, "pxb-diags-output".toList, ["tmp".toList], ?_, by decide⟩
    unfold Plain
    decide
  · rename_i h
    rw [Join_pair _ _ h]
    refine CleanDir_Clean_append _ _ h ?_
    unfold Plain
    decide

theorem Join_plain (b s : Str) (hb : CleanDir b) (hs : Plain s) :
    Join [b, s] = b ++ '/' :: s ∧ CleanDir (Join [b, s]) := by
  have h := CleanDir_Join b s hb hs
  exact ⟨h.1, h.1 ▸ h.2⟩

theorem Join_plain_plain (b a c : Str) (hb : CleanDir b) (ha : Plain a) (hc : Plain c) :
    Join [b, a ++ '/' :: c] = b ++ '/' :: (a ++ '/' :: c) ∧
    CleanDir (Join [b, a ++ '/' :: c]) := by
  have h1 := CleanDir_append b a hb ha
  have h2 := CleanDir_append (b ++ '/' :: a) c h1.2 hc
  have e : b ++ '/' :: (a ++ '/' :: c) = (b ++ '/' :: a) ++ '/' :: c := by simp
  rw [Join_pair _ _ hb.1, e]
  exact ⟨h2.1, h2.1.symm ▸ h2.2⟩

theorem plain_of_decide (s : Str) (h : s ≠ [] ∧ s ≠ ['.'] ∧ s ≠ ['.', '.'] ∧ '/' ∉ s) :
    Plain s := h

theorem jobDescribePath_eq (b : Str) (hb : CleanDir b) :
    jobDescribePath b = b ++ "/job/describe".toList ∧ CleanDir (jobDescribePath b) :=
  Join_plain_plain b "job".toList "describe".toList hb (plain_of_decide _ (by decide))
    (plain_of_decide _ (by decide))

theorem jobSpecPath_eq (b : Str) (hb : CleanDir b) :
    jobSpecPath b = b ++ "/job/spec".toList ∧ CleanDir (jobSpecPath b) :=
  Join_plain_plain b "job".toList "spec".toList hb (plain_of_decide _ (by decide))
    (plain_of_decide _ (by decide))

theorem logsPath_eq (b : Str) (hb : CleanDir b) :
    logsPath b = b ++ "/logs".toList ∧ CleanDir (logsPath b) :=
  Join_plain b "logs".toList hb (plain_of_decide _ (by decide))

theorem logsPreviousPath_eq (b : Str) (hb : CleanDir b) :
    logsPreviousPath b = b ++ "/logs-previous".toList ∧ CleanDir (logsPreviousPath b) :=
  Join_plain b "logs-previous".toList hb (plain_of_decide _ (by decide))

theorem podDescribePath_eq (b : Str) (hb : CleanDir b) :
    podDescribePath b = b ++ "/pod/describe".toList ∧ CleanDir (podDescribePath b) :=
  Join_plain_plain b "pod".toList "describe".toList hb (plain_of_decide _ (by decide))
    (plain_of_decide _ (by decide))

theorem podSpecPath_eq (b : Str) (hb : CleanDir b) :
    podSpecPath b = b ++ "/pod/spec".toList ∧ CleanDir (podSpecPath b) :=
  Join_plain_plain b "pod".toList "spec".toList hb (plain_of_decide _ (by decide))
    (plain_of_decide _ (by decide))

theorem resourceQuotaPath_eq (b : Str) (hb : CleanDir b) :
    resourceQuotaPath b = b ++ "/resourcequota".toList ∧ CleanDir (resourceQuotaPath b) :=
  Join_plain b "resourcequota".toList hb (plain_of_decide _ (by decide))

theorem networkPolicyPath_eq (b : Str) (hb : CleanDir b) :
    networkPolicyPath b = b ++ "/networkpolicy".toList ∧ CleanDir (networkPolicyPath b) :=
  Join_plain b "networkpolicy".toList hb (plain_of_decide _ (by decide))

theorem cmPath_eq (b : Str) (hb : CleanDir b) :
    cmPath b = b ++ "/configmap".toList ∧ CleanDir (cmPath b) :=
  Join_plain b "configmap".toList hb (plain_of_decide _ (by decide))

theorem statefulSetSpecPath_eq (b : Str) (hb : CleanDir b) :
    statefulSetSpecPath b = b ++ "/statefulset/spec".toList ∧
    CleanDir (statefulSetSpecPath b) :=
  Join_plain_plain b "statefulset".toList "spec".toList hb (plain_of_decide _ (by decide))
    (plain_of_decide _ (by decide))

theorem statefulSetDescribePath_eq (b : Str) (hb : CleanDir b) :
    statefulSetDescribePath b = b ++ "/statefulset/describe".toList ∧
    CleanDir (statefulSetDescribePath b) :=
  Join_plain_plain b "statefulset".toList "describe".toList hb (plain_of_decide _ (by decide))
    (plain_of_decide _ (by decide))

theorem deploymentSpecPath_eq (b : Str) (hb : CleanDir b) :
    deploymentSpecPath b = b ++ "/deployment/spec".toList ∧ CleanDir (deploymentSpecPath b) :=
  Join_plain_plain b "deployment".toList "spec".toList hb (plain_of_decide _ (by decide))
    (plain_of_decide _ (by decide))

theorem deploymentDescribePath_eq (b : Str) (hb : CleanDir b) :
    deploymentDescribePath b = b ++ "/deployment/describe".toList ∧
    CleanDir (deploymentDescribePath b) :=
  Join_plain_plain b "deployment".toList "describe".toList hb (plain_of_decide _ (by decide))
    (plain_of_decide _ (by decide))

theorem pvcSpecPath_eq (b : Str) (hb : CleanDir b) :
    pvcSpecPath b = b ++ "/pvc/spec".toList ∧ CleanDir (pvcSpecPath b) :=
  Join_plain_plain b "pvc".toList "spec".toList hb (plain_of_decide _ (by decide))
    (plain_of_decide _ (by decide))

theorem pvcDescribePath_eq (b : Str) (hb : CleanDir b) :
    pvcDescribePath b = b ++ "/pvc/describe".toList ∧ CleanDir (pvcDescribePath b) :=
  Join_plain_plain b "pvc".toList "describe".toList hb (plain_of_decide _ (by decide))
    (plain_of_decide _ (by decide))

theorem podListPath_eq (b : Str) (hb : CleanDir b) :
    podListPath b = b ++ "/pod_list.txt".toList :=
  (Join_plain b "pod_list.txt".toList hb (plain_of_decide _ (by decide))).1

theorem prometheusListPath_eq (b : Str) (hb : CleanDir b) :
    prometheusListPath b = b ++ "/prometheus_list.txt".toList :=
  (Join_plain b "prometheus_list.txt".toList hb (plain_of_decide _ (by decide))).1

theorem alertmanagerListPath_eq (b : Str) (hb : CleanDir b) :
    alertmanagerListPath b = b ++ "/alertmanager_list.txt".toList :=
  (Join_plain b "alertmanager_list.txt".toList hb (plain_of_decide _ (by decide))).1

/-! ## The launch loops in closed form -/

theorem foldl_go {α : Type} (g : α → Task) (xs : List α) (s : Sched) :
    xs.foldl (fun s x => s.go (g x)) s = ⟨s.wg + xs.length, s.tasks ++ xs.map g⟩ := by
  induction xs generalizing s with
  | nil => simp
  | cons x xs ih =>
    rw [List.foldl_cons, ih]
    simp [Sched.go]
    omega

theorem foldl_go_go {α : Type} (g h : α → Task) (xs : List α) (s : Sched) :
    xs.foldl (fun s x => (s.go (g x)).go (h x)) s =
      ⟨s.wg + 2 * xs.length, s.tasks ++ xs.flatMap (fun x => [g x, h x])⟩ := by
  induction xs generalizing s with
  | nil => simp
  | cons x xs ih =>
    rw [List.foldl_cons, ih]
    simp [Sched.go]
    omega

theorem podLoopBody_eq (base ns : Str) (tailLines : Int) (s : Sched) (pod : Pod) :
    podLoopBody base ns tailLines s pod =
      ⟨s.wg + (2 * (pod.InitContainers.length + pod.Containers.length) + 2),
        s.tasks ++ podTasks base ns tailLines pod⟩ := by
  unfold podLoopBody podTasks
  simp only [foldl_go]
  simp [Sched.go]
  omega

theorem foldl_podLoopBody (base ns : Str) (tailLines : Int) (pods : List Pod) (s : Sched) :
    pods.foldl (podLoopBody base ns tailLines) s =
      ⟨s.wg + (pods.map (fun pod =>
          2 * (pod.InitContainers.length + pod.Containers.length) + 2)).sum,
        s.tasks ++ pods.flatMap (podTasks base ns tailLines)⟩ := by
  induction pods generalizing s with
  | nil => simp
  | cons p ps ih =>
    rw [List.foldl_cons, ih, podLoopBody_eq]
    simp
    omega

/-- The wait group count and the goroutines after the launch loops. -/
theorem collect_eq (base ns : Str) (tailLines : Int) (snap : Snapshot) :
    collect base ns tailLines snap =
      ⟨snap.networkPolicyList.length + snap.quotaList.length + snap.cms.length +
        2 * snap.deployments.length + 2 * snap.pvcList.length +
        2 * snap.statefulSets.length + 2 * snap.jobs.length +
        (snap.pods.map (fun pod =>
          2 * (pod.InitContainers.length + pod.Containers.length) + 2)).sum,
       collectTasks base ns tailLines snap⟩ := by
  unfold collect collectTasks
  simp only [foldl_go, foldl_go_go, foldl_podLoopBody]
  simp

theorem length_podTasks (base ns : Str) (tailLines : Int) (pod : Pod) :
    (podTasks base ns tailLines pod).length =
      2 * (pod.InitContainers.length + pod.Containers.length) + 2 := by
  simp [podTasks]
  omega

theorem length_collectTasks (base ns : Str) (tailLines : Int) (snap : Snapshot) :
    (collectTasks base ns tailLines snap).length =
      snap.networkPolicyList.length + snap.quotaList.length + snap.cms.length +
        2 * snap.deployments.length + 2 * snap.pvcList.length +
        2 * snap.statefulSets.length + 2 * snap.jobs.length +
        (snap.pods.map (fun pod =>
          2 * (pod.InitContainers.length + pod.Containers.length) + 2)).sum := by
  have h2 : ∀ {α : Type} (g h : α → Task) (xs : List α),
      (xs.flatMap (fun x => [g x, h x])).length = 2 * xs.length := by
    intro α g h xs
    induction xs with
    | nil => rfl
    | cons x xs ih => simp [List.flatMap_cons, ih]; omega
  have hp : (snap.pods.flatMap (podTasks base ns tailLines)).length =
      (snap.pods.map (fun pod =>
        2 * (pod.InitContainers.length + pod.Containers.length) + 2)).sum := by
    induction snap.pods with
    | nil => rfl
    | cons p ps ih => simp [List.flatMap_cons, ih, length_podTasks]
  unfold collectTasks
  simp only [List.length_append, List.length_map, h2, hp]

/-! ## Where the goroutines come from -/

theorem names_pod (snap : Snapshot) :
    snap.names podResource = snap.pods.map (fun x => x.Name) := rfl

theorem names_job (snap : Snapshot) :
    snap.names jobResource = snap.jobs.map (fun x => x.Name) := rfl

theorem names_cm (snap : Snapshot) :
    snap.names cmResource = snap.cms.map (fun x => x.Name) := rfl

theorem names_statefulSet (snap : Snapshot) :
    snap.names statefulSetResource = snap.statefulSets.map (fun x => x.Name) := rfl

theorem names_deployment (snap : Snapshot) :
    snap.names deploymentResource = snap.deployments.map (fun x => x.Name) := rfl

theorem names_resourceQuota (snap : Snapshot) :
    snap.names resourceQuotaResource = snap.quotaList.map (fun x => x.Name) := rfl

theorem names_networkPolicy (snap : Snapshot) :
    snap.names networkPolicyResource = snap.networkPolicyList.map (fun x => x.Name) := rfl

theorem names_pvc (snap : Snapshot) :
    snap.names pvcResource = snap.pvcList.map (fun x => x.Name) := rfl

theorem collectTasks_shape (base ns : Str) (tailLines : Int) (snap : Snapshot)
    (hb : CleanDir base) :
    ∀ t ∈ collectTasks base ns tailLines snap, Shape base ns tailLines snap t := by
  intro t ht
  simp only [collectTasks, podTasks, List.mem_append, List.mem_map, List.mem_flatMap,
    List.mem_cons, List.mem_singleton, List.not_mem_nil, or_false, or_assoc] at ht
  rcases ht with ⟨x, hx, rfl⟩ | ⟨x, hx, rfl⟩ | ⟨x, hx, rfl⟩ | ⟨x, hx, rfl | rfl⟩ |
    ⟨x, hx, rfl | rfl⟩ | ⟨x, hx, rfl | rfl⟩ | ⟨x, hx, rfl | rfl⟩ |
    ⟨p, hp, ⟨c, hc, rfl⟩ | ⟨c, hc, rfl⟩ | ⟨c, hc, rfl⟩ | ⟨c, hc, rfl⟩ | rfl | rfl⟩
  · exact ⟨rfl, by decide, by rw [names_networkPolicy]; exact List.mem_map.mpr ⟨x, hx, rfl⟩,
      (networkPolicyPath_eq base hb).1⟩
  · exact ⟨rfl, by decide, by rw [names_resourceQuota]; exact List.mem_map.mpr ⟨x, hx, rfl⟩,
      (resourceQuotaPath_eq base hb).1⟩
  · exact ⟨rfl, by decide, by rw [names_cm]; exact List.mem_map.mpr ⟨x, hx, rfl⟩,
      (cmPath_eq base hb).1⟩
  · exact ⟨rfl, by decide, by rw [names_deployment]; exact List.mem_map.mpr ⟨x, hx, rfl⟩,
      (deploymentSpecPath_eq base hb).1⟩
  · exact ⟨rfl, by decide, by rw [names_deployment]; exact List.mem_map.mpr ⟨x, hx, rfl⟩,
      (deploymentDescribePath_eq base hb).1⟩
  · exact ⟨rfl, by decide, by rw [names_pvc]; exact List.mem_map.mpr ⟨x, hx, rfl⟩,
      (pvcSpecPath_eq base hb).1⟩
  · exact ⟨rfl, by decide, by rw [names_pvc]; exact List.mem_map.mpr ⟨x, hx, rfl⟩,
      (pvcDescribePath_eq base hb).1⟩
  · exact ⟨rfl, by decide, by rw [names_statefulSet]; exact List.mem_map.mpr ⟨x, hx, rfl⟩,
      (statefulSetSpecPath_eq base hb).1⟩
  · exact ⟨rfl, by decide, by rw [names_statefulSet]; exact List.mem_map.mpr ⟨x, hx, rfl⟩,
      (statefulSetDescribePath_eq base hb).1⟩
  · exact ⟨rfl, by decide, by rw [names_job]; exact List.mem_map.mpr ⟨x, hx, rfl⟩,
      (jobSpecPath_eq base hb).1⟩
  · exact ⟨rfl, by decide, by rw [names_job]; exact List.mem_map.mpr ⟨x, hx, rfl⟩,
      (jobDescribePath_eq base hb).1⟩
  · exact ⟨rfl, rfl, (logsPath_eq base hb).1, p, hp, rfl, c, hc, rfl⟩
  · exact ⟨rfl, rfl, (logsPath_eq base hb).1, p, hp, rfl, c, hc, rfl⟩
  · exact ⟨rfl, rfl, (logsPreviousPath_eq base hb).1, p, hp, rfl, c, hc, rfl⟩
  · exact ⟨rfl, rfl, (logsPreviousPath_eq base hb).1, p, hp, rfl, c, hc, rfl⟩
  · exact ⟨rfl, by decide, by rw [names_pod]; exact List.mem_map.mpr ⟨p, hp, rfl⟩,
      (podSpecPath_eq base hb).1⟩
  · exact ⟨rfl, by decide, by rw [names_pod]; exact List.mem_map.mpr ⟨p, hp, rfl⟩,
      (podDescribePath_eq base hb).1⟩

/-! ## Target paths -/

theorem split_first (s : Char) : ∀ (x x' y y' : Str), s ∉ x → s ∉ x' →
    x ++ s :: y = x' ++ s :: y' → x = x' ∧ y = y' := by
  intro x
  induction x with
  | nil =>
    intro x' y y' _ hx' h
    cases x' with
    | nil => simp at h; exact ⟨rfl, h⟩
    | cons c cs =>
      simp at h
      exact absurd (by simp [h.1]) hx'
  | cons a as ih =>
    intro x' y y' hx hx' h
    cases x' with
    | nil =>
      simp at h
      exact absurd (by simp [h.1]) hx
    | cons c cs =>
      simp only [List.cons_append, List.cons.injEq] at h
      obtain ⟨h1, h2⟩ := ih cs y y' (fun e => hx (List.mem_cons_of_mem _ e))
        (fun e => hx' (List.mem_cons_of_mem _ e)) h.2
      exact ⟨by rw [h.1, h1], h2⟩

theorem split_last (s : Char) (a b f g : Str) (hf : s ∉ f) (hg : s ∉ g)
    (h : a ++ s :: f = b ++ s :: g) : a = b ∧ f = g := by
  have h2 : f.reverse ++ s :: a.reverse = g.reverse ++ s :: b.reverse := by
    have := congrArg List.reverse h
    simpa using this
  obtain ⟨h3, h4⟩ := split_first s _ _ _ _ (by simpa using hf) (by simpa using hg) h2
  exact ⟨List.reverse_injective h4, List.reverse_injective h3⟩

theorem plain_append (name ext : Str) (hn : '/' ∉ name) (he : '/' ∉ ext)
    (hl : 3 ≤ ext.length) : Plain (name ++ ext) := by
  refine ⟨?_, ?_, ?_, ?_⟩
  · intro h
    have := congrArg List.length h
    rw [List.length_append] at this
    simp only [List.length_nil] at this
    omega
  · intro h
    have := congrArg List.length h
    rw [List.length_append] at this
    simp only [List.length_singleton] at this
    omega
  · intro h
    have := congrArg List.length h
    rw [List.length_append] at this
    simp only [List.length_cons, List.length_nil] at this
    omega
  · intro h
    rcases List.mem_append.mp h with h | h
    · exact hn h
    · exact he h

theorem specFilePath_eq (d name : Str) (hd : CleanDir d) (hn : '/' ∉ name) :
    specFilePath d name = d ++ '/' :: (name ++ ".yaml".toList) :=
  (Join_plain d _ hd (plain_append name _ hn (by decide) (by decide))).1

theorem descFilePath_eq (d name : Str) (hd : CleanDir d) (hn : '/' ∉ name) :
    descFilePath d name = d ++ '/' :: (name ++ ".txt".toList) :=
  (Join_plain d _ hd (plain_append name _ hn (by decide) (by decide))).1

theorem role_noSlash (init : Bool) : '/' ∉ role init ∧ '_' ∉ role init := by
  cases init <;> decide

theorem logFilePath_eq (d p c : Str) (init : Bool) (hd : CleanDir d) (hp : '/' ∉ p)
    (hc : '/' ∉ c) :
    logFilePath d p c (role init) =
      d ++ '/' :: (p ++ '_' :: (c ++ '_' :: (role init ++ ".log".toList))) := by
  have hplain : Plain (p ++ "_".toList ++ c ++ "_".toList ++ role init ++ ".log".toList) := by
    refine plain_append _ _ ?_ (by decide) (by decide)
    intro h
    simp only [List.mem_append] at h
    rcases h with (((h | h) | h) | h) | h
    · exact hp h
    · revert h; decide
    · exact hc h
    · revert h; decide
    · exact (role_noSlash init).1 h
  have := (Join_plain d _ hd hplain).1
  unfold logFilePath
  rw [this]
  simp

theorem specRel_cleanDir (base : Str) (hb : CleanDir base) (kind : Str)
    (hk : kind ∈ trackedKinds) : CleanDir (base ++ '/' :: specRel kind) := by
  simp only [trackedKinds, List.mem_cons, List.mem_singleton, List.not_mem_nil, or_false] at hk
  rcases hk with rfl | rfl | rfl | rfl | rfl | rfl | rfl | rfl
  · have h := podSpecPath_eq base hb; rw [h.1] at h; exact h.2
  · have h := jobSpecPath_eq base hb; rw [h.1] at h; exact h.2
  · have h := cmPath_eq base hb; rw [h.1] at h; exact h.2
  · have h := statefulSetSpecPath_eq base hb; rw [h.1] at h; exact h.2
  · have h := deploymentSpecPath_eq base hb; rw [h.1] at h; exact h.2
  · have h := resourceQuotaPath_eq base hb; rw [h.1] at h; exact h.2
  · have h := networkPolicyPath_eq base hb; rw [h.1] at h; exact h.2
  · have h := pvcSpecPath_eq base hb; rw [h.1] at h; exact h.2

theorem descRel_cleanDir (base : Str) (hb : CleanDir base) (kind : Str)
    (hk : kind ∈ describedKinds) : CleanDir (base ++ '/' :: descRel kind) := by
  simp only [describedKinds, List.mem_cons, List.mem_singleton, List.not_mem_nil,
    or_false] at hk
  rcases hk with rfl | rfl | rfl | rfl | rfl
  · have h := podDescribePath_eq base hb; rw [h.1] at h; exact h.2
  · have h := jobDescribePath_eq base hb; rw [h.1] at h; exact h.2
  · have h := statefulSetDescribePath_eq base hb; rw [h.1] at h; exact h.2
  · have h := deploymentDescribePath_eq base hb; rw [h.1] at h; exact h.2
  · have h := pvcDescribePath_eq base hb; rw [h.1] at h; exact h.2

theorem logRel_cleanDir (base : Str) (hb : CleanDir base) (previous : Bool) :
    CleanDir (base ++ '/' :: logRel previous) := by
  cases previous
  · have h := logsPath_eq base hb; rw [h.1] at h; exact h.2
  · have h := logsPreviousPath_eq base hb; rw [h.1] at h; exact h.2

theorem described_tracked : ∀ k ∈ describedKinds, k ∈ trackedKinds := by
  decide

theorem specRel_injective : ∀ k1 ∈ trackedKinds, ∀ k2 ∈ trackedKinds,
    specRel k1 = specRel k2 → k1 = k2 := by
  decide

theorem descRel_injective : ∀ k1 ∈ describedKinds, ∀ k2 ∈ describedKinds,
    descRel k1 = descRel k2 → k1 = k2 := by
  decide

theorem specRel_ne_descRel : ∀ k1 ∈ trackedKinds, ∀ k2 ∈ describedKinds,
    specRel k1 ≠ descRel k2 := by
  decide

theorem specRel_ne_logRel : ∀ k ∈ trackedKinds, ∀ previous : Bool,
    specRel k ≠ logRel previous := by
  decide

theorem descRel_ne_logRel : ∀ k ∈ describedKinds, ∀ previous : Bool,
    descRel k ≠ logRel previous := by
  decide

theorem logRel_injective : ∀ p1 p2 : Bool, logRel p1 = logRel p2 → p1 = p2 := by
  decide

theorem role_injective : ∀ i1 i2 : Bool,
    role i1 ++ ".log".toList = role i2 ++ ".log".toList → i1 = i2 := by
  decide

theorem noSlash_yaml (name : Str) (hn : '/' ∉ name) : '/' ∉ name ++ ".yaml".toList := by
  intro h
  rcases List.mem_append.mp h with h | h
  · exact hn h
  · revert h; decide

theorem noSlash_txt (name : Str) (hn : '/' ∉ name) : '/' ∉ name ++ ".txt".toList := by
  intro h
  rcases List.mem_append.mp h with h | h
  · exact hn h
  · revert h; decide

theorem noSlash_log (p c : Str) (init : Bool) (hp : '/' ∉ p) (hc : '/' ∉ c) :
    '/' ∉ p ++ '_' :: (c ++ '_' :: (role init ++ ".log".toList)) := by
  intro h
  simp only [List.mem_append, List.mem_cons] at h
  rcases h with h | h | h | h | h | h
  · exact hp h
  · revert h; decide
  · exact hc h
  · revert h; decide
  · exact (role_noSlash init).1 h
  · revert h; decide

theorem shape_valid_log (base ns : Str) (tailLines : Int) (snap : Snapshot)
    (hv : snap.Valid) (d n p c : Str) (tl : Int) (previous init : Bool)
    (h : Shape base ns tailLines snap (.log d n p c tl previous init)) :
    ValidName p ∧ ValidName c := by
  obtain ⟨_, _, _, pod, hpod, hname, x, hx, hxname⟩ := h
  constructor
  · have : p ∈ snap.names podResource := by
      rw [names_pod]; exact List.mem_map.mpr ⟨pod, hpod, hname⟩
    exact hv.1 podResource (by decide) p this
  · rw [← hxname]
    refine hv.2 pod hpod x ?_
    cases init
    · exact List.mem_append_right _ (by simpa using hx)
    · exact List.mem_append_left _ (by simpa using hx)

/-- Two goroutines of a run with the same target file are the same
goroutine, when the listed names are valid. -/
theorem target_injective (base ns : Str) (tailLines : Int) (snap : Snapshot)
    (hb : CleanDir base) (hv : snap.Valid) (t1 t2 : Task)
    (h1 : Shape base ns tailLines snap t1) (h2 : Shape base ns tailLines snap t2)
    (ht : t1.target = t2.target) : t1 = t2 := by
  cases t1 with
  | spec d1 n1 name1 k1 =>
    obtain ⟨hn1, hk1, hm1, hd1⟩ := h1
    have hv1 := hv.1 k1 hk1 name1 hm1
    have e1 := specFilePath_eq d1 name1 (hd1 ▸ specRel_cleanDir base hb k1 hk1) hv1.1
    cases t2 with
    | spec d2 n2 name2 k2 =>
      obtain ⟨hn2, hk2, hm2, hd2⟩ := h2
      have hv2 := hv.1 k2 hk2 name2 hm2
      have e2 := specFilePath_eq d2 name2 (hd2 ▸ specRel_cleanDir base hb k2 hk2) hv2.1
      simp only [Task.target] at ht
      rw [e1, e2] at ht
      obtain ⟨hd, hf⟩ := split_last '/' _ _ _ _ (noSlash_yaml _ hv1.1) (noSlash_yaml _ hv2.1) ht
      have hname : name1 = name2 := List.append_cancel_right hf
      rw [hd1, hd2] at hd
      have hrel : specRel k1 = specRel k2 := by
        have := List.append_cancel_left hd
        exact (List.cons.inj this).2
      have hk := specRel_injective k1 hk1 k2 hk2 hrel
      rw [hd1, hd2, hn1, hn2, hname, hk]
    | desc d2 n2 name2 k2 =>
      obtain ⟨hn2, hk2, hm2, hd2⟩ := h2
      have hv2 := hv.1 k2 (described_tracked k2 hk2) name2 hm2
      have e2 := descFilePath_eq d2 name2 (hd2 ▸ descRel_cleanDir base hb k2 hk2) hv2.1
      simp only [Task.target] at ht
      rw [e1, e2] at ht
      obtain ⟨hd, _⟩ := split_last '/' _ _ _ _ (noSlash_yaml _ hv1.1) (noSlash_txt _ hv2.1) ht
      rw [hd1, hd2] at hd
      have hrel : specRel k1 = descRel k2 := by
        have := List.append_cancel_left hd
        exact (List.cons.inj this).2
      exact absurd hrel (specRel_ne_descRel k1 hk1 k2 hk2)
    | log d2 n2 p2 c2 tl2 prev2 init2 =>
      have hv2 := shape_valid_log base ns tailLines snap hv _ _ _ _ _ _ _ h2
      obtain ⟨hn2, htl2, hd2, _⟩ := h2
      have e2 := logFilePath_eq d2 p2 c2 init2 (hd2 ▸ logRel_cleanDir base hb prev2)
        hv2.1.1 hv2.2.1
      simp only [Task.target] at ht
      rw [e1, e2] at ht
      obtain ⟨hd, _⟩ := split_last '/' _ _ _ _ (noSlash_yaml _ hv1.1)
        (noSlash_log _ _ _ hv2.1.1 hv2.2.1) ht
      rw [hd1, hd2] at hd
      have hrel : specRel k1 = logRel prev2 := by
        have := List.append_cancel_left hd
        exact (List.cons.inj this).2
      exact absurd hrel (specRel_ne_logRel k1 hk1 prev2)
  | desc d1 n1 name1 k1 =>
    obtain ⟨hn1, hk1, hm1, hd1⟩ := h1
    have hv1 := hv.1 k1 (described_tracked k1 hk1) name1 hm1
    have e1 := descFilePath_eq d1 name1 (hd1 ▸ descRel_cleanDir base hb k1 hk1) hv1.1
    cases t2 with
    | spec d2 n2 name2 k2 =>
      obtain ⟨hn2, hk2, hm2, hd2⟩ := h2
      have hv2 := hv.1 k2 hk2 name2 hm2
      have e2 := specFilePath_eq d2 name2 (hd2 ▸ specRel_cleanDir base hb k2 hk2) hv2.1
      simp only [Task.target] at ht
      rw [e1, e2] at ht
      obtain ⟨hd, _⟩ := split_last '/' _ _ _ _ (noSlash_txt _ hv1.1) (noSlash_yaml _ hv2.1) ht
      rw [hd1, hd2] at hd
      have hrel : specRel k2 = descRel k1 := by
        have := List.append_cancel_left hd
        exact (List.cons.inj this).2.symm
      exact absurd hrel (specRel_ne_descRel k2 hk2 k1 hk1)
    | desc d2 n2 name2 k2 =>
      obtain ⟨hn2, hk2, hm2, hd2⟩ := h2
      have hv2 := hv.1 k2 (described_tracked k2 hk2) name2 hm2
      have e2 := descFilePath_eq d2 name2 (hd2 ▸ descRel_cleanDir base hb k2 hk2) hv2.1
      simp only [Task.target] at ht
      rw [e1, e2] at ht
      obtain ⟨hd, hf⟩ := split_last '/' _ _ _ _ (noSlash_txt _ hv1.1) (noSlash_txt _ hv2.1) ht
      have hname : name1 = name2 := List.append_cancel_right hf
      rw [hd1, hd2] at hd
      have hrel : descRel k1 = descRel k2 := by
        have := List.append_cancel_left hd
        exact (List.cons.inj this).2
      have hk := descRel_injective k1 hk1 k2 hk2 hrel
      rw [hd1, hd2, hn1, hn2, hname, hk]
    | log d2 n2 p2 c2 tl2 prev2 init2 =>
      have hv2 := shape_valid_log base ns tailLines snap hv _ _ _ _ _ _ _ h2
      obtain ⟨hn2, htl2, hd2, _⟩ := h2
      have e2 := logFilePath_eq d2 p2 c2 init2 (hd2 ▸ logRel_cleanDir base hb prev2)
        hv2.1.1 hv2.2.1
      simp only [Task.target] at ht
      rw [e1, e2] at ht
      obtain ⟨hd, _⟩ := split_last '/' _ _ _ _ (noSlash_txt _ hv1.1)
        (noSlash_log _ _ _ hv2.1.1 hv2.2.1) ht
      rw [hd1, hd2] at hd
      have hrel : descRel k1 = logRel prev2 := by
        have := List.append_cancel_left hd
        exact (List.cons.inj this).2
      exact absurd hrel (descRel_ne_logRel k1 hk1 prev2)
  | log d1 n1 p1 c1 tl1 prev1 init1 =>
    have hv1 := shape_valid_log base ns tailLines snap hv _ _ _ _ _ _ _ h1
    obtain ⟨hn1, htl1, hd1, _⟩ := h1
    have e1 := logFilePath_eq d1 p1 c1 init1 (hd1 ▸ logRel_cleanDir base hb prev1)
      hv1.1.1 hv1.2.1
    cases t2 with
    | spec d2 n2 name2 k2 =>
      obtain ⟨hn2, hk2, hm2, hd2⟩ := h2
      have hv2 := hv.1 k2 hk2 name2 hm2
      have e2 := specFilePath_eq d2 name2 (hd2 ▸ specRel_cleanDir base hb k2 hk2) hv2.1
      simp only [Task.target] at ht
      rw [e1, e2] at ht
      obtain ⟨hd, _⟩ := split_last '/' _ _ _ _ (noSlash_log _ _ _ hv1.1.1 hv1.2.1)
        (noSlash_yaml _ hv2.1) ht
      rw [hd1, hd2] at hd
      have hrel : specRel k2 = logRel prev1 := by
        have := List.append_cancel_left hd
        exact (List.cons.inj this).2.symm
      exact absurd hrel (specRel_ne_logRel k2 hk2 prev1)
    | desc d2 n2 name2 k2 =>
      obtain ⟨hn2, hk2, hm2, hd2⟩ := h2
      have hv2 := hv.1 k2 (described_tracked k2 hk2) name2 hm2
      have e2 := descFilePath_eq d2 name2 (hd2 ▸ descRel_cleanDir base hb k2 hk2) hv2.1
      simp only [Task.target] at ht
      rw [e1, e2] at ht
      obtain ⟨hd, _⟩ := split_last '/' _ _ _ _ (noSlash_log _ _ _ hv1.1.1 hv1.2.1)
        (noSlash_txt _ hv2.1) ht
      rw [hd1, hd2] at hd
      have hrel : descRel k2 = logRel prev1 := by
        have := List.append_cancel_left hd
        exact (List.cons.inj this).2.symm
      exact absurd hrel (descRel_ne_logRel k2 hk2 prev1)
    | log d2 n2 p2 c2 tl2 prev2 init2 =>
      have hv2 := shape_valid_log base ns tailLines snap hv _ _ _ _ _ _ _ h2
      obtain ⟨hn2, htl2, hd2, _⟩ := h2
      have e2 := logFilePath_eq d2 p2 c2 init2 (hd2 ▸ logRel_cleanDir base hb prev2)
        hv2.1.1 hv2.2.1
      simp only [Task.target] at ht
      rw [e1, e2] at ht
      obtain ⟨hd, hf⟩ := split_last '/' _ _ _ _ (noSlash_log _ _ _ hv1.1.1 hv1.2.1)
        (noSlash_log _ _ _ hv2.1.1 hv2.2.1) ht
      rw [hd1, hd2] at hd
      have hrel : logRel prev1 = logRel prev2 := by
        have := List.append_cancel_left hd
        exact (List.cons.inj this).2
      have hprev := logRel_injective prev1 prev2 hrel
      obtain ⟨hp, hf2⟩ := split_first '_' _ _ _ _ hv1.1.2 hv2.1.2 hf
      obtain ⟨hc, hf3⟩ := split_first '_' _ _ _ _ hv1.2.2 hv2.2.2 hf2
      have hinit := role_injective init1 init2 hf3
      rw [hd1, hd2, hn1, hn2, htl1, htl2, hp, hc, hprev, hinit]

/-! ## The goroutines of a run are pairwise different -/

theorem nodup_append_of_key {κ : Type} (key : Task → κ) (l1 l2 : List Task)
    (keys : List κ) (k : κ) (h1 : l1.Nodup) (h2 : l2.Nodup)
    (hk1 : ∀ a ∈ l1, key a ∈ keys) (hk2 : ∀ b ∈ l2, key b = k) (hk : k ∉ keys) :
    (l1 ++ l2).Nodup := by
  rw [List.nodup_append]
  refine ⟨h1, h2, ?_⟩
  intro a ha hb
  have := hk1 a ha
  rw [hk2 a hb] at this
  exact hk this

theorem nodup_map_obj (g : Obj → Task) (hg : ∀ x y, g x = g y → x.Name = y.Name)
    (xs : List Obj) (h : (xs.map (fun x => x.Name)).Nodup) : (xs.map g).Nodup := by
  refine List.Nodup.map ?_ (List.Nodup.of_map _ h)
  intro x y hxy
  have := hg x y hxy
  cases x; cases y
  simp_all

theorem nodup_map_container (g : Container → Task)
    (hg : ∀ x y, g x = g y → x.Name = y.Name)
    (xs : List Container) (h : (xs.map (fun x => x.Name)).Nodup) : (xs.map g).Nodup := by
  refine List.Nodup.map ?_ (List.Nodup.of_map _ h)
  intro x y hxy
  have := hg x y hxy
  cases x; cases y
  simp_all

theorem nodup_flatMap_pair (g h : Obj → Task)
    (hg : ∀ x y, g x = g y → x.Name = y.Name) (hh : ∀ x y, h x = h y → x.Name = y.Name)
    (hgh : ∀ x y, g x ≠ h y)
    (xs : List Obj) (hx : (xs.map (fun x => x.Name)).Nodup) :
    (xs.flatMap (fun x => [g x, h x])).Nodup := by
  rw [List.nodup_flatMap]
  constructor
  · intro x _
    simp [hgh x x]
  · have hp : List.Pairwise (fun a b : Obj => a.Name ≠ b.Name) xs := by
      rw [List.Nodup, List.pairwise_map] at hx
      exact hx
    refine hp.imp ?_
    intro a b hab
    simp only [Function.onFun, List.Disjoint]
    intro t hta htb
    simp only [List.mem_cons, List.mem_singleton, List.not_mem_nil, or_false] at hta htb
    rcases hta with rfl | rfl <;> rcases htb with e | e
    · exact hab (hg _ _ e)
    · exact hgh _ _ e
    · exact hgh _ _ e.symm
    · exact hab (hh _ _ e)

theorem nodup_podTasks (base ns : Str) (tailLines : Int) (pod : Pod)
    (hi : (pod.InitContainers.map (fun c => c.Name)).Nodup)
    (hc : (pod.Containers.map (fun c => c.Name)).Nodup) :
    (podTasks base ns tailLines pod).Nodup := by
  unfold podTasks
  have n1 := nodup_map_container (currentLogTask base ns tailLines true pod)
    (by intro x y h; simp [currentLogTask] at h; exact h) _ hi
  have n2 := nodup_map_container (currentLogTask base ns tailLines false pod)
    (by intro x y h; simp [currentLogTask] at h; exact h) _ hc
  have n3 := nodup_map_container (previousLogTask base ns tailLines true pod)
    (by intro x y h; simp [previousLogTask] at h; exact h) _ hi
  have n4 := nodup_map_container (previousLogTask base ns tailLines false pod)
    (by intro x y h; simp [previousLogTask] at h; exact h) _ hc
  have n5 : [podSpecTask base ns pod, podDescTask base ns pod].Nodup := by
    simp [podSpecTask, podDescTask]
  have a1 := nodup_append_of_key Task.artifact _ _ [2] 3 n1 n2
    (by intro a ha; simp only [List.mem_map] at ha; obtain ⟨x, _, rfl⟩ := ha
        simp [currentLogTask, Task.artifact])
    (by intro a ha; simp only [List.mem_map] at ha; obtain ⟨x, _, rfl⟩ := ha
        simp [currentLogTask, Task.artifact])
    (by decide)
  have a2 := nodup_append_of_key Task.artifact _ _ [2, 3] 4 a1 n3
    (by intro a ha; simp only [List.mem_append, List.mem_map] at ha
        rcases ha with ⟨x, _, rfl⟩ | ⟨x, _, rfl⟩ <;> simp [currentLogTask, Task.artifact])
    (by intro a ha; simp only [List.mem_map] at ha; obtain ⟨x, _, rfl⟩ := ha
        simp [previousLogTask, Task.artifact])
    (by decide)
  have a3 := nodup_append_of_key Task.artifact _ _ [2, 3, 4] 5 a2 n4
    (by intro a ha; simp only [List.mem_append, List.mem_map] at ha
        rcases ha with (⟨x, _, rfl⟩ | ⟨x, _, rfl⟩) | ⟨x, _, rfl⟩ <;>
          simp [currentLogTask, previousLogTask, Task.artifact])
    (by intro a ha; simp only [List.mem_map] at ha; obtain ⟨x, _, rfl⟩ := ha
        simp [previousLogTask, Task.artifact])
    (by decide)
  rw [List.nodup_append]
  refine ⟨a3, n5, ?_⟩
  intro a ha hb
  have h1 : a.artifact ∈ [2, 3, 4, 5] := by
    simp only [List.mem_append, List.mem_map] at ha
    rcases ha with ((⟨x, _, rfl⟩ | ⟨x, _, rfl⟩) | ⟨x, _, rfl⟩) | ⟨x, _, rfl⟩ <;>
      simp [currentLogTask, previousLogTask, Task.artifact]
  have h2 : a.artifact ∈ [0, 1] := by
    simp only [List.mem_cons, List.mem_singleton, List.not_mem_nil, or_false] at hb
    rcases hb with rfl | rfl <;> simp [podSpecTask, podDescTask, Task.artifact]
  revert h1 h2
  generalize a.artifact = n
  intro h1 h2
  simp at h1 h2
  omega

theorem subject_podTasks (base ns : Str) (tailLines : Int) (pod : Pod) :
    ∀ t ∈ podTasks base ns tailLines pod, t.subject = pod.Name := by
  intro t ht
  simp only [podTasks, List.mem_append, List.mem_map, List.mem_cons, List.mem_singleton,
    List.not_mem_nil, or_false] at ht
  rcases ht with (((⟨x, _, rfl⟩ | ⟨x, _, rfl⟩) | ⟨x, _, rfl⟩) | ⟨x, _, rfl⟩) | rfl | rfl <;>
    rfl

theorem kind_podTasks (base ns : Str) (tailLines : Int) (pod : Pod) :
    ∀ t ∈ podTasks base ns tailLines pod, t.kind = podResource := by
  intro t ht
  simp only [podTasks, List.mem_append, List.mem_map, List.mem_cons, List.mem_singleton,
    List.not_mem_nil, or_false] at ht
  rcases ht with (((⟨x, _, rfl⟩ | ⟨x, _, rfl⟩) | ⟨x, _, rfl⟩) | ⟨x, _, rfl⟩) | rfl | rfl <;>
    rfl

theorem nodup_pods_tasks (base ns : Str) (tailLines : Int) (pods : List Pod)
    (hn : (pods.map (fun p => p.Name)).Nodup)
    (hc : ∀ pod ∈ pods, (pod.InitContainers.map (fun c => c.Name)).Nodup ∧
      (pod.Containers.map (fun c => c.Name)).Nodup) :
    (pods.flatMap (podTasks base ns tailLines)).Nodup := by
  rw [List.nodup_flatMap]
  constructor
  · intro p hp
    exact nodup_podTasks base ns tailLines p (hc p hp).1 (hc p hp).2
  · have hp : List.Pairwise (fun a b : Pod => a.Name ≠ b.Name) pods := by
      rw [List.Nodup, List.pairwise_map] at hn
      exact hn
    refine hp.imp ?_
    intro a b hab
    simp only [Function.onFun, List.Disjoint]
    intro t hta htb
    exact hab ((subject_podTasks base ns tailLines a t hta).symm.trans
      (subject_podTasks base ns tailLines b t htb))

theorem kind_flatMap_pair (g h : Obj → Task) (k : Str) (hg : ∀ x, (g x).kind = k)
    (hh : ∀ x, (h x).kind = k) (xs : List Obj) :
    ∀ t ∈ xs.flatMap (fun x => [g x, h x]), t.kind = k := by
  intro t ht
  simp only [List.mem_flatMap, List.mem_cons, List.mem_singleton, List.not_mem_nil,
    or_false] at ht
  obtain ⟨x, _, rfl | rfl⟩ := ht
  · exact hg x
  · exact hh x

theorem kind_map (g : Obj → Task) (k : Str) (hg : ∀ x, (g x).kind = k) (xs : List Obj) :
    ∀ t ∈ xs.map g, t.kind = k := by
  intro t ht
  obtain ⟨x, _, rfl⟩ := List.mem_map.mp ht
  exact hg x

theorem kind_append (l1 l2 : List Task) (keys : List Str) (k : Str)
    (h1 : ∀ t ∈ l1, t.kind ∈ keys) (h2 : ∀ t ∈ l2, t.kind = k) :
    ∀ t ∈ l1 ++ l2, t.kind ∈ keys ++ [k] := by
  intro t ht
  rcases List.mem_append.mp ht with h | h
  · exact List.mem_append_left _ (h1 t h)
  · exact List.mem_append_right _ (by simp [h2 t h])

/-- With unique names the goroutines of a run are pairwise different. -/
theorem nodup_collectTasks (base ns : Str) (tailLines : Int) (snap : Snapshot)
    (hu : snap.Unique) : (collectTasks base ns tailLines snap).Nodup := by
  obtain ⟨hnames, hcont⟩ := hu
  have u1 := hnames networkPolicyResource (by decide)
  have u2 := hnames resourceQuotaResource (by decide)
  have u3 := hnames cmResource (by decide)
  have u4 := hnames deploymentResource (by decide)
  have u5 := hnames pvcResource (by decide)
  have u6 := hnames statefulSetResource (by decide)
  have u7 := hnames jobResource (by decide)
  have u8 := hnames podResource (by decide)
  rw [names_networkPolicy] at u1
  rw [names_resourceQuota] at u2
  rw [names_cm] at u3
  rw [names_deployment] at u4
  rw [names_pvc] at u5
  rw [names_statefulSet] at u6
  rw [names_job] at u7
  rw [names_pod] at u8
  have n1 := nodup_map_obj (npSpecTask base ns)
    (by intro x y h; simp [npSpecTask] at h; exact h) _ u1
  have n2 := nodup_map_obj (quotaSpecTask base ns)
    (by intro x y h; simp [quotaSpecTask] at h; exact h) _ u2
  have n3 := nodup_map_obj (cmSpecTask base ns)
    (by intro x y h; simp [cmSpecTask] at h; exact h) _ u3
  have n4 := nodup_flatMap_pair (deploymentSpecTask base ns) (deploymentDescTask base ns)
    (by intro x y h; simp [deploymentSpecTask] at h; exact h)
    (by intro x y h; simp [deploymentDescTask] at h; exact h)
    (by intro x y; simp [deploymentSpecTask, deploymentDescTask]) _ u4
  have n5 := nodup_flatMap_pair (pvcSpecTask base ns) (pvcDescTask base ns)
    (by intro x y h; simp [pvcSpecTask] at h; exact h)
    (by intro x y h; simp [pvcDescTask] at h; exact h)
    (by intro x y; simp [pvcSpecTask, pvcDescTask]) _ u5
  have n6 := nodup_flatMap_pair (statefulSetSpecTask base ns) (statefulSetDescTask base ns)
    (by intro x y h; simp [statefulSetSpecTask] at h; exact h)
    (by intro x y h; simp [statefulSetDescTask] at h; exact h)
    (by intro x y; simp [statefulSetSpecTask, statefulSetDescTask]) _ u6
  have n7 := nodup_flatMap_pair (jobSpecTask base ns) (jobDescTask base ns)
    (by intro x y h; simp [jobSpecTask] at h; exact h)
    (by intro x y h; simp [jobDescTask] at h; exact h)
    (by intro x y; simp [jobSpecTask, jobDescTask]) _ u7
  have n8 := nodup_pods_tasks base ns tailLines snap.pods u8 hcont
  have k1 := kind_map (npSpecTask base ns) networkPolicyResource (fun _ => rfl)
    snap.networkPolicyList
  have k2 := kind_map (quotaSpecTask base ns) resourceQuotaResource (fun _ => rfl)
    snap.quotaList
  have k3 := kind_map (cmSpecTask base ns) cmResource (fun _ => rfl) snap.cms
  have k4 := kind_flatMap_pair (deploymentSpecTask base ns) (deploymentDescTask base ns)
    deploymentResource (fun _ => rfl) (fun _ => rfl) snap.deployments
  have k5 := kind_flatMap_pair (pvcSpecTask base ns) (pvcDescTask base ns)
    pvcResource (fun _ => rfl) (fun _ => rfl) snap.pvcList
  have k6 := kind_flatMap_pair (statefulSetSpecTask base ns) (statefulSetDescTask base ns)
    statefulSetResource (fun _ => rfl) (fun _ => rfl) snap.statefulSets
  have k7 := kind_flatMap_pair (jobSpecTask base ns) (jobDescTask base ns)
    jobResource (fun _ => rfl) (fun _ => rfl) snap.jobs
  have k8 : ∀ t ∈ snap.pods.flatMap (podTasks base ns tailLines), t.kind = podResource := by
    intro t ht
    obtain ⟨p, _, hp⟩ := List.mem_flatMap.mp ht
    exact kind_podTasks base ns tailLines p t hp
  have j1 : ∀ t ∈ snap.networkPolicyList.map (npSpecTask base ns),
      t.kind ∈ [networkPolicyResource] := fun t ht => by simp [k1 t ht]
  have a2 := nodup_append_of_key Task.kind _ _ _ _ n1 n2 j1 k2 (by decide)
  have j2 := kind_append _ _ _ _ j1 k2
  have a3 := nodup_append_of_key Task.kind _ _ _ _ a2 n3 j2 k3 (by decide)
  have j3 := kind_append _ _ _ _ j2 k3
  have a4 := nodup_append_of_key Task.kind _ _ _ _ a3 n4 j3 k4 (by decide)
  have j4 := kind_append _ _ _ _ j3 k4
  have a5 := nodup_append_of_key Task.kind _ _ _ _ a4 n5 j4 k5 (by decide)
  have j5 := kind_append _ _ _ _ j4 k5
  have a6 := nodup_append_of_key Task.kind _ _ _ _ a5 n6 j5 k6 (by decide)
  have j6 := kind_append _ _ _ _ j5 k6
  have a7 := nodup_append_of_key Task.kind _ _ _ _ a6 n7 j6 k7 (by decide)
  have j7 := kind_append _ _ _ _ j6 k7
  exact nodup_append_of_key Task.kind _ _ _ _ a7 n8 j7 k8 (by decide)

/-! ## The run as a whole -/

/-- Case analysis on the way `main` ends. -/
theorem main_cases (f : Flags) (w : World) (P : Run → Prop)
    (hkube : P ⟨[kubeconfigLine], [], [], 0, [], [], .exited 1⟩)
    (hpanic : ∀ e, P ⟨[], [], [], 0, [], [], .panicked e⟩)
    (hmkdir : ∀ created dir e,
      makeDirs w.mkdirAll (directories (baseDir f.outputDir)) = (created, some (dir, e)) →
      P ⟨["Error creating directory ".toList ++ dir ++ ": ".toList ++ e ++ "\n".toList],
        created, [], 0, [], [], .returned⟩)
    (hns : ∀ created, P ⟨(resolveNamespace f w).1 ++ [notFoundLine], created, [], 0, [], [],
      .exited 1⟩)
    (hrun : ∀ created,
      makeDirs w.mkdirAll (directories (baseDir f.outputDir)) = (created, none) →
      (resolveNamespace f w).2 ≠ [] →
      P (discoverAndCollect w (baseDir f.outputDir) (resolveNamespace f w).2 f.tailLines
        (resolveNamespace f w).1 created)) :
    P (main f w) := by
  unfold main
  simp only []
  split
  · exact hkube
  · split
    · exact hpanic _
    · split
      · exact hpanic _
      · split
        · rename_i heq
          exact hmkdir _ _ _ heq
        · rename_i heq
          split
          · exact hns _
          · rename_i hne
            exact hrun _ heq hne

theorem makeDirs_none (mk : Str → Option Str) : ∀ (dirs created : List Str),
    makeDirs mk dirs = (created, none) → created = dirs := by
  intro dirs
  induction dirs with
  | nil => intro created h; simp [makeDirs] at h; exact h
  | cons d ds ih =>
    intro created h
    unfold makeDirs at h
    split at h
    · simp at h
    · simp only [Prod.mk.injEq] at h
      have := ih (makeDirs mk ds).1 (Prod.ext rfl h.2)
      rw [← h.1, this]

/-- Either `main` launched nothing, or the list calls gave a snapshot, all
directories were created and the goroutines are those of the launch loops. -/
theorem main_run (f : Flags) (w : World) :
    ((main f w).tasks = [] ∧ (main f w).lists = [] ∧ (main f w).wg = 0) ∨
    ∃ listed snap, listAll w (resolveNamespace f w).2 = (listed, .ok snap) ∧
      (main f w).tasks =
        collectTasks (baseDir f.outputDir) (resolveNamespace f w).2 f.tailLines snap ∧
      (main f w).wg = (main f w).tasks.length ∧
      (main f w).mkdirs = directories (baseDir f.outputDir) ∧
      (main f w).lists =
        [⟨podResource, (resolveNamespace f w).2, podListPath (baseDir f.outputDir)⟩,
         ⟨prometheusResource, (resolveNamespace f w).2,
           prometheusListPath (baseDir f.outputDir)⟩,
         ⟨alertmanagerResource, (resolveNamespace f w).2,
           alertmanagerListPath (baseDir f.outputDir)⟩] := by
  apply main_cases f w (fun r => (r.tasks = [] ∧ r.lists = [] ∧ r.wg = 0) ∨
    ∃ listed snap, listAll w (resolveNamespace f w).2 = (listed, .ok snap) ∧
      r.tasks = collectTasks (baseDir f.outputDir) (resolveNamespace f w).2 f.tailLines snap ∧
      r.wg = r.tasks.length ∧
      r.mkdirs = directories (baseDir f.outputDir) ∧
      r.lists =
        [⟨podResource, (resolveNamespace f w).2, podListPath (baseDir f.outputDir)⟩,
         ⟨prometheusResource, (resolveNamespace f w).2,
           prometheusListPath (baseDir f.outputDir)⟩,
         ⟨alertmanagerResource, (resolveNamespace f w).2,
           alertmanagerListPath (baseDir f.outputDir)⟩])
  · exact Or.inl ⟨rfl, rfl, rfl⟩
  · intro e; exact Or.inl ⟨rfl, rfl, rfl⟩
  · intro created dir e _; exact Or.inl ⟨rfl, rfl, rfl⟩
  · intro created; exact Or.inl ⟨rfl, rfl, rfl⟩
  · intro created hmk _
    have hc := makeDirs_none _ _ _ hmk
    unfold discoverAndCollect
    split
    · exact Or.inl ⟨rfl, rfl, rfl⟩
    · rename_i listed snap heq
      refine Or.inr ⟨listed, snap, heq, ?_, ?_, hc, rfl⟩
      · simp only [collect_eq]
      · simp only [collect_eq, length_collectTasks]

theorem main_tasks_shape (f : Flags) (w : World) (t : Task) (ht : t ∈ (main f w).tasks) :
    ∃ listed snap, listAll w (resolveNamespace f w).2 = (listed, .ok snap) ∧
      Shape (baseDir f.outputDir) (resolveNamespace f w).2 f.tailLines snap t := by
  rcases main_run f w with ⟨h, _, _⟩ | ⟨listed, snap, hl, htasks, _, _, _⟩
  · rw [h] at ht; exact absurd ht (List.not_mem_nil _)
  · rw [htasks] at ht
    exact ⟨listed, snap, hl,
      collectTasks_shape _ _ _ _ (baseDir_cleanDir f.outputDir) t ht⟩

/-! ## C1: a failing fetch -/

theorem WriteResourceSpecToFile_run_error (sys : Sys) (fs : FS)
    (filePath ns resourceName resourceType e : Str)
    (hcreate : sys.create (specFilePath filePath resourceName) = none)
    (hrun : (sys.run ["kubectl".toList, "get".toList, resourceType, resourceName, "-n".toList,
      ns, "-o".toList, "yaml".toList]).err = some e) :
    (WriteResourceSpecToFile sys fs filePath ns resourceName resourceType).err = some e ∧
    (WriteResourceSpecToFile sys fs filePath ns resourceName resourceType).fs
      (specFilePath filePath resourceName) = some [] := by
  unfold WriteResourceSpecToFile
  simp only [hcreate, hrun]
  simp [FS.put]

theorem WriteResourceDescToFile_run_error (sys : Sys) (fs : FS)
    (filePath ns resourceName resourceType e : Str)
    (hcreate : sys.create (descFilePath filePath resourceName) = none)
    (hrun : (sys.run ["kubectl".toList, "describe".toList, resourceType, resourceName,
      "-n".toList, ns]).err = some e) :
    (WriteResourceDescToFile sys fs filePath ns resourceName resourceType).err = some e ∧
    (WriteResourceDescToFile sys fs filePath ns resourceName resourceType).fs
      (descFilePath filePath resourceName) = some [] := by
  unfold WriteResourceDescToFile
  simp only [hcreate, hrun]
  simp [FS.put]

/-- C1 (code defect): with `kubectl` failing for config map `c1`, both helpers
return the error, yet the target file, absent before the call, exists
afterwards as an empty file: the file is created before the fetch. -/
theorem C1_failed_fetch_leaves_empty_file :
    emptyFS "/tmp/pxb-diags-output/configmap/c1.yaml".toList = none ∧
    (WriteResourceSpecToFile sysKubectlFails emptyFS "/tmp/pxb-diags-output/configmap".toList
      "ns1".toList "c1".toList cmResource).err = some "exit status 1".toList ∧
    (WriteResourceSpecToFile sysKubectlFails emptyFS "/tmp/pxb-diags-output/configmap".toList
      "ns1".toList "c1".toList cmResource).fs
      "/tmp/pxb-diags-output/configmap/c1.yaml".toList = some [] ∧
    emptyFS "/tmp/pxb-diags-output/job/describe/j1.txt".toList = none ∧
    (WriteResourceDescToFile sysKubectlFails emptyFS "/tmp/pxb-diags-output/job/describe".toList
      "ns1".toList "j1".toList jobResource).err = some "exit status 1".toList ∧
    (WriteResourceDescToFile sysKubectlFails emptyFS "/tmp/pxb-diags-output/job/describe".toList
      "ns1".toList "j1".toList jobResource).fs
      "/tmp/pxb-diags-output/job/describe/j1.txt".toList = some [] := by
  decide

/-! ## C2: previous logs that cannot be opened -/

/-- C2: when opening the log stream of a previous-log goroutine fails with
error text `e`, the goroutine leaves the file system as it was; it prints
nothing when `e` contains `previous terminated container` (`GetPodLogs`
returns the empty string and no error) and exactly one line, the
`Error getting logs` line, for any other error. -/
theorem C2_previous_log_open_failure (w : World) (fuel : Nat) (fs : FS)
    (outputDir ns podName containerName : Str) (tailLines : Int) (init : Bool) (e : Str)
    (hopen : w.getLogs ns podName
      ⟨containerName, if tailLines > 0 then some tailLines else none, true⟩ = .error e) :
    GetPodLogs w.getLogs fuel ns podName containerName tailLines true =
      some ([], if Contains e "previous terminated container".toList then none
        else some ("error in getting logs: ".toList ++ e)) ∧
    (Task.log outputDir ns podName containerName tailLines true init).exec w fuel fs =
      some (fs, if Contains e "previous terminated container".toList then []
        else ["Error getting logs for pod ".toList ++ podName ++ ", ".toList ++
          roleWord init ++ " ".toList ++ containerName ++ ": ".toList ++
          ("error in getting logs: ".toList ++ e)]) := by
  have h1 : GetPodLogs w.getLogs fuel ns podName containerName tailLines true =
      some ([], if Contains e "previous terminated container".toList then none
        else some ("error in getting logs: ".toList ++ e)) := by
    unfold GetPodLogs
    simp only [hopen]
    split <;> simp_all
  refine ⟨h1, ?_⟩
  simp only [Task.exec]
  rw [h1]
  by_cases hc : Contains e "previous terminated container".toList = true
  · simp only [hc, if_true]
    simp
  · simp only [hc]
    simp

theorem C2_previous_log_open_failure_witness :
    noPreviousWorld.getLogs "ns1".toList "p1".toList
      ⟨"main-b".toList, if (50 : Int) > 0 then some 50 else none, true⟩ =
      .error "previous terminated container main-b in pod p1 not found".toList ∧
    (Task.log "out/pxb-diags-output/logs-previous".toList "ns1".toList "p1".toList
      "main-b".toList 50 true false).exec noPreviousWorld 0 emptyFS =
      some (emptyFS, if Contains "previous terminated container main-b in pod p1 not found".toList
        "previous terminated container".toList then []
        else ["Error getting logs for pod ".toList ++ "p1".toList ++ ", ".toList ++
          roleWord false ++ " ".toList ++ "main-b".toList ++ ": ".toList ++
          ("error in getting logs: ".toList ++
            "previous terminated container main-b in pod p1 not found".toList)]) :=
  ⟨rfl, (C2_previous_log_open_failure noPreviousWorld 0 emptyFS
    "out/pxb-diags-output/logs-previous".toList "ns1".toList "p1".toList "main-b".toList 50
    false "previous terminated container main-b in pod p1 not found".toList rfl).2⟩

/-! ## C3: a failing list call -/

theorem isError_true {α : Type} (r : Except Str α) (h : isError r = true) :
    ∃ e, r = .error e := by
  cases r with
  | error e => exact ⟨e, rfl⟩
  | ok a => simp [isError] at h

theorem listAll_of_listFails (w : World) (ns k : Str) (hk : k ∈ trackedKinds)
    (h : w.listFails ns k = true) :
    ∃ e, (listAll w ns).2 = .error e ∧ (listAll w ns).1 <+: trackedKinds ∧
      (listAll w ns).1.length ≤ trackedKinds.indexOf k + 1 := by
  simp only [trackedKinds, List.mem_cons, List.mem_singleton, List.not_mem_nil, or_false] at hk
  rcases hk with rfl | rfl | rfl | rfl | rfl | rfl | rfl | rfl
  all_goals
    have h2 := isError_true _ (by simpa [World.listFails, podResource, jobResource, cmResource,
      statefulSetResource, deploymentResource, resourceQuotaResource, networkPolicyResource,
      pvcResource] using h)
    obtain ⟨e0, he0⟩ := h2
    unfold listAll
    repeat' split
    all_goals first
      | (refine ⟨_, rfl, ?_, ?_⟩ <;> dsimp only <;> decide)
      | simp_all

theorem completionLine_not_mem_resolve (f : Flags) (w : World) (b : Str) :
    completionLine b ∉ (resolveNamespace f w).1 := by
  unfold resolveNamespace
  split
  · split <;> simp [completionLine]
  · simp

theorem discoverAndCollect_of_listFails (w : World) (base ns : Str) (tailLines : Int)
    (out1 created : List Str) (k : Str) (hk : k ∈ trackedKinds)
    (h : w.listFails ns k = true) (hout : completionLine base ∉ out1) :
    (discoverAndCollect w base ns tailLines out1 created).tasks = [] ∧
    (discoverAndCollect w base ns tailLines out1 created).wg = 0 ∧
    (discoverAndCollect w base ns tailLines out1 created).lists = [] ∧
    completionLine base ∉ (discoverAndCollect w base ns tailLines out1 created).stdout ∧
    (discoverAndCollect w base ns tailLines out1 created).listed <+: trackedKinds ∧
    (discoverAndCollect w base ns tailLines out1 created).listed.length ≤
      trackedKinds.indexOf k + 1 ∧
    ∃ e, (discoverAndCollect w base ns tailLines out1 created).outcome = .panicked e := by
  obtain ⟨e, h1, h2, h3⟩ := listAll_of_listFails w ns k hk h
  unfold discoverAndCollect
  split
  · rename_i listed e1 heq
    rw [heq] at h2 h3
    exact ⟨rfl, rfl, rfl, hout, h2, h3, e1, rfl⟩
  · rename_i listed snap heq
    rw [heq] at h1
    simp at h1

/-- C3 (amended): when the list call of a tracked kind `k` fails, `main`
launches no goroutine, writes no list file and never prints the completion
line; the kinds listed are an initial part of the listing order that stops
at `k` at the latest, and once a list call was made the process ends in a
panic. -/
theorem C3_list_failure_panics (f : Flags) (w : World) (k : Str) (hk : k ∈ trackedKinds)
    (hfail : w.listFails (resolveNamespace f w).2 k = true) :
    (main f w).tasks = [] ∧ (main f w).wg = 0 ∧ (main f w).lists = [] ∧
    completionLine (baseDir f.outputDir) ∉ (main f w).stdout ∧
    (main f w).listed <+: trackedKinds ∧
    (main f w).listed.length ≤ trackedKinds.indexOf k + 1 ∧
    ((main f w).listed ≠ [] → ∃ e, (main f w).outcome = .panicked e) := by
  apply main_cases f w (fun r => r.tasks = [] ∧ r.wg = 0 ∧ r.lists = [] ∧
    completionLine (baseDir f.outputDir) ∉ r.stdout ∧ r.listed <+: trackedKinds ∧
    r.listed.length ≤ trackedKinds.indexOf k + 1 ∧
    (r.listed ≠ [] → ∃ e, r.outcome = .panicked e))
  · exact ⟨rfl, rfl, rfl, by simp [completionLine, kubeconfigLine], List.nil_prefix,
      Nat.zero_le _, fun h => absurd rfl h⟩
  · intro e
    exact ⟨rfl, rfl, rfl, by simp, List.nil_prefix, Nat.zero_le _, fun h => absurd rfl h⟩
  · intro created dir e _
    exact ⟨rfl, rfl, rfl, by simp [completionLine], List.nil_prefix, Nat.zero_le _,
      fun h => absurd rfl h⟩
  · intro created
    refine ⟨rfl, rfl, rfl, ?_, List.nil_prefix, Nat.zero_le _, fun h => absurd rfl h⟩
    intro hmem
    rcases List.mem_append.mp hmem with h | h
    · exact completionLine_not_mem_resolve f w (baseDir f.outputDir) h
    · simp [completionLine, notFoundLine] at h
  · intro created _ _
    obtain ⟨h1, h2, h3, h4, h5, h6, h7⟩ := discoverAndCollect_of_listFails w
      (baseDir f.outputDir) (resolveNamespace f w).2 f.tailLines (resolveNamespace f w).1
      created k hk hfail (completionLine_not_mem_resolve f w _)
    exact ⟨h1, h2, h3, h4, h5, h6, fun _ => h7⟩

theorem C3_list_failure_panics_witness :
    jobResource ∈ trackedKinds ∧
    jobListFailsWorld.listFails (resolveNamespace sampleFlags jobListFailsWorld).2 jobResource =
      true ∧
    (main sampleFlags jobListFailsWorld).tasks = [] ∧
    (main sampleFlags jobListFailsWorld).wg = 0 ∧
    (main sampleFlags jobListFailsWorld).lists = [] ∧
    completionLine (baseDir sampleFlags.outputDir) ∉
      (main sampleFlags jobListFailsWorld).stdout ∧
    (main sampleFlags jobListFailsWorld).listed <+: trackedKinds ∧
    (main sampleFlags jobListFailsWorld).listed.length ≤ trackedKinds.indexOf jobResource + 1 ∧
    ((main sampleFlags jobListFailsWorld).listed ≠ [] →
      ∃ e, (main sampleFlags jobListFailsWorld).outcome = .panicked e) :=
  ⟨by decide, by decide,
    C3_list_failure_panics sampleFlags jobListFailsWorld jobResource (by decide) (by decide)⟩

/-- C3 (counterexample): in the sample cluster only the job list call fails,
every other list call succeeds, and yet the config maps are never listed, no
goroutine is launched (the listed pod is not collected), the completion line
is not printed and the process ends in a panic. -/
theorem C3_counterexample :
    jobListFailsWorld.listFails "ns1".toList jobResource = true ∧
    (∀ k ∈ trackedKinds, k ≠ jobResource →
      jobListFailsWorld.listFails "ns1".toList k = false) ∧
    (main sampleFlags jobListFailsWorld).listed = [podResource, jobResource] ∧
    (main sampleFlags jobListFailsWorld).tasks = [] ∧
    completionLine (baseDir sampleFlags.outputDir) ∉
      (main sampleFlags jobListFailsWorld).stdout ∧
    (main sampleFlags jobListFailsWorld).outcome = .panicked "jobs is forbidden".toList := by
  decide

/-! ## C4: a bundle directory that cannot be created -/

theorem main_mkdir_failure (f : Flags) (w : World) (created : List Str) (dir e : Str)
    (hkube : kubeconfigOf f w ≠ [])
    (hconfig : w.buildConfig (kubeconfigOf f w) = none) (hclient : w.newForConfig = none)
    (hmk : makeDirs w.mkdirAll (directories (baseDir f.outputDir)) = (created, some (dir, e))) :
    main f w = ⟨["Error creating directory ".toList ++ dir ++ ": ".toList ++ e ++ "\n".toList],
      created, [], 0, [], [], .returned⟩ := by
  unfold main
  simp only [hkube, if_false, hconfig, hclient, hmk]

/-- C4 (code defect): on a read-only output directory the first `MkdirAll`
fails; `main` prints the error, launches no goroutine and writes no file, but
it returns normally, so the exit status is 0 and not 1. -/
theorem C4_mkdir_failure_exit_status :
    readOnlyWorld.mkdirAll (jobDescribePath (baseDir sampleFlags.outputDir)) =
      some "read-only file system".toList ∧
    (main sampleFlags readOnlyWorld).stdout =
      [("Error creating directory out/pxb-diags-output/job/describe: " ++
        "read-only file system\n").toList] ∧
    (main sampleFlags readOnlyWorld).mkdirs = [] ∧
    (main sampleFlags readOnlyWorld).tasks = [] ∧
    (main sampleFlags readOnlyWorld).lists = [] ∧
    (main sampleFlags readOnlyWorld).outcome = .returned ∧
    (main sampleFlags readOnlyWorld).outcome.status = 0 := by
  decide

/-! ## C5: where Spec and Description files go -/

theorem WriteResourceSpecToFile_other (sys : Sys) (fs : FS)
    (filePath ns resourceName resourceType q : Str)
    (hq : q ≠ specFilePath filePath resourceName) :
    (WriteResourceSpecToFile sys fs filePath ns resourceName resourceType).fs q = fs q := by
  unfold WriteResourceSpecToFile
  simp only []
  split
  · rfl
  · split
    · simp [FS.put, hq]
    · split <;> simp [FS.put, hq]

theorem WriteResourceDescToFile_other (sys : Sys) (fs : FS)
    (filePath ns resourceName resourceType q : Str)
    (hq : q ≠ descFilePath filePath resourceName) :
    (WriteResourceDescToFile sys fs filePath ns resourceName resourceType).fs q = fs q := by
  unfold WriteResourceDescToFile
  simp only []
  split
  · rfl
  · split
    · simp [FS.put, hq]
    · split <;> simp [FS.put, hq]

theorem WriteLogsToFile_other (sys : Sys) (fs : FS)
    (outputDir podName containerName logs containerType q : Str)
    (hq : q ≠ logFilePath outputDir podName containerName containerType) :
    (WriteLogsToFile sys fs outputDir podName containerName logs containerType).fs q = fs q := by
  unfold WriteLogsToFile
  simp only []
  split
  · rfl
  · split <;> simp [FS.put, hq]

theorem specOnly_iff : ∀ kind ∈ trackedKinds,
    (kind ∈ specOnlyKinds ↔ kind ∉ describedKinds) := by
  decide

/-- C5 (amended): a Spec goroutine of `main` is for a tracked kind and passes
the directory `<root>/<kind>` for configmap, resourcequota and networkpolicy
(the kinds without a description) and `<root>/<kind-dir>/spec` for the other
kinds; a Description goroutine is for a kind with descriptions and passes
`<root>/<kind-dir>/describe`. The helper touches no file but
`<dir>/<name>.yaml` (`<dir>/<name>.txt`), which is that very text when the
name has no separator. -/
theorem C5_spec_and_describe_paths (f : Flags) (w : World)
    (filePath ns name kind : Str) :
    (Task.spec filePath ns name kind ∈ (main f w).tasks →
      kind ∈ trackedKinds ∧
      filePath = baseDir f.outputDir ++ '/' ::
        (if kind ∈ specOnlyKinds then kind else kindDir kind ++ "/spec".toList) ∧
      (kind ∈ specOnlyKinds ↔ kind ∉ describedKinds) ∧
      (∀ sys fs q, q ≠ specFilePath filePath name →
        (WriteResourceSpecToFile sys fs filePath ns name kind).fs q = fs q) ∧
      specFilePath filePath name = Clean (filePath ++ '/' :: (name ++ ".yaml".toList)) ∧
      ('/' ∉ name →
        specFilePath filePath name = filePath ++ '/' :: (name ++ ".yaml".toList))) ∧
    (Task.desc filePath ns name kind ∈ (main f w).tasks →
      kind ∈ describedKinds ∧
      filePath = baseDir f.outputDir ++ '/' :: (kindDir kind ++ "/describe".toList) ∧
      (∀ sys fs q, q ≠ descFilePath filePath name →
        (WriteResourceDescToFile sys fs filePath ns name kind).fs q = fs q) ∧
      descFilePath filePath name = Clean (filePath ++ '/' :: (name ++ ".txt".toList)) ∧
      ('/' ∉ name →
        descFilePath filePath name = filePath ++ '/' :: (name ++ ".txt".toList))) := by
  have hb := baseDir_cleanDir f.outputDir
  constructor
  · intro ht
    obtain ⟨listed, snap, _, _, hk, _, hd⟩ := main_tasks_shape f w _ ht
    have hcd : CleanDir filePath := hd ▸ specRel_cleanDir _ hb kind hk
    refine ⟨hk, hd, ?_, fun sys fs q hq => WriteResourceSpecToFile_other sys fs _ _ _ _ q hq,
      Join_pair _ _ hcd.1, fun hn => specFilePath_eq _ _ hcd hn⟩
    exact specOnly_iff kind hk
  · intro ht
    obtain ⟨listed, snap, _, _, hk, _, hd⟩ := main_tasks_shape f w _ ht
    have hcd : CleanDir filePath := hd ▸ descRel_cleanDir _ hb kind hk
    exact ⟨hk, hd, fun sys fs q hq => WriteResourceDescToFile_other sys fs _ _ _ _ q hq,
      Join_pair _ _ hcd.1, fun hn => descFilePath_eq _ _ hcd hn⟩

theorem C5_spec_and_describe_paths_witness :
    Task.spec "out/pxb-diags-output/job/spec".toList "ns1".toList "j1".toList jobResource ∈
      (main sampleFlags sampleWorld).tasks ∧
    Task.desc "out/pxb-diags-output/job/describe".toList "ns1".toList "j1".toList jobResource ∈
      (main sampleFlags sampleWorld).tasks ∧
    jobResource ∈ trackedKinds ∧
    "out/pxb-diags-output/job/spec".toList = baseDir sampleFlags.outputDir ++ '/' ::
      (if jobResource ∈ specOnlyKinds then jobResource
        else kindDir jobResource ++ "/spec".toList) ∧
    jobResource ∈ describedKinds ∧
    "out/pxb-diags-output/job/describe".toList = baseDir sampleFlags.outputDir ++ '/' ::
      (kindDir jobResource ++ "/describe".toList) :=
  ⟨by decide, by decide,
    ((C5_spec_and_describe_paths sampleFlags sampleWorld "out/pxb-diags-output/job/spec".toList
      "ns1".toList "j1".toList jobResource).1 (by decide)).1,
    ((C5_spec_and_describe_paths sampleFlags sampleWorld "out/pxb-diags-output/job/spec".toList
      "ns1".toList "j1".toList jobResource).1 (by decide)).2.1,
    ((C5_spec_and_describe_paths sampleFlags sampleWorld
      "out/pxb-diags-output/job/describe".toList "ns1".toList "j1".toList jobResource).2
      (by decide)).1,
    ((C5_spec_and_describe_paths sampleFlags sampleWorld
      "out/pxb-diags-output/job/describe".toList "ns1".toList "j1".toList jobResource).2
      (by decide)).2.1⟩

/-- C5 (counterexample): in the sample run the Spec goroutine for config map
`c1` passes the directory `out/pxb-diags-output/configmap`, whose last
element is `configmap` and not `spec`, and the file it creates is
`out/pxb-diags-output/configmap/c1.yaml`. -/
theorem C5_counterexample :
    Task.spec "out/pxb-diags-output/configmap".toList "ns1".toList "c1".toList cmResource ∈
      (main sampleFlags sampleWorld).tasks ∧
    (splitSlash "out/pxb-diags-output/configmap".toList).getLast? = some "configmap".toList ∧
    (splitSlash "out/pxb-diags-output/configmap".toList).getLast? ≠ some "spec".toList ∧
    specFilePath "out/pxb-diags-output/configmap".toList "c1".toList =
      "out/pxb-diags-output/configmap/c1.yaml".toList ∧
    specFilePath "out/pxb-diags-output/configmap".toList "c1".toList ≠
      "out/pxb-diags-output/configmap/spec/c1.yaml".toList := by
  decide

/-! ## What a goroutine writes -/

theorem FS.put_put (fs : FS) (path a b : Str) : (fs.put path a).put path b = fs.put path b := by
  funext q
  unfold FS.put
  by_cases h : q = path <;> simp [h]

/-- A goroutine that ends leaves every file but its target as it was. -/
theorem exec_other (w : World) (fuel : Nat) (fs fs1 : FS) (out : List Str) (t : Task)
    (h : t.exec w fuel fs = some (fs1, out)) (q : Str) (hq : q ≠ t.target) :
    fs1 q = fs q := by
  cases t with
  | spec filePath ns name resourceType =>
    simp only [Task.exec] at h
    split at h <;>
    · simp only [Option.some.injEq, Prod.mk.injEq] at h
      rw [← h.1]
      exact WriteResourceSpecToFile_other _ _ _ _ _ _ q hq
  | desc filePath ns name resourceType =>
    simp only [Task.exec] at h
    split at h <;>
    · simp only [Option.some.injEq, Prod.mk.injEq] at h
      rw [← h.1]
      exact WriteResourceDescToFile_other _ _ _ _ _ _ q hq
  | log outputDir ns podName containerName tailLines previous init =>
    simp only [Task.exec] at h
    split at h
    · simp at h
    · simp only [Option.some.injEq, Prod.mk.injEq] at h
      rw [← h.1]
    · split at h
      · simp only [Option.some.injEq, Prod.mk.injEq] at h
        rw [← h.1]
      · split at h <;>
        · simp only [Option.some.injEq, Prod.mk.injEq] at h
          rw [← h.1]
          exact WriteLogsToFile_other _ _ _ _ _ _ _ q hq

theorem WriteResourceSpecToFile_creates (sys : Sys) (fs : FS)
    (filePath ns resourceName resourceType : Str)
    (hcreate : sys.create (specFilePath filePath resourceName) = none) :
    ((WriteResourceSpecToFile sys fs filePath ns resourceName resourceType).fs
      (specFilePath filePath resourceName)).isSome = true := by
  unfold WriteResourceSpecToFile
  simp only [hcreate]
  split
  · simp [FS.put]
  · split <;> simp [FS.put]

theorem WriteResourceDescToFile_creates (sys : Sys) (fs : FS)
    (filePath ns resourceName resourceType : Str)
    (hcreate : sys.create (descFilePath filePath resourceName) = none) :
    ((WriteResourceDescToFile sys fs filePath ns resourceName resourceType).fs
      (descFilePath filePath resourceName)).isSome = true := by
  unfold WriteResourceDescToFile
  simp only [hcreate]
  split
  · simp [FS.put]
  · split <;> simp [FS.put]

theorem WriteLogsToFile_creates (sys : Sys) (fs : FS)
    (outputDir podName containerName logs containerType : Str)
    (hcreate : sys.create (logFilePath outputDir podName containerName containerType) = none) :
    ((WriteLogsToFile sys fs outputDir podName containerName logs containerType).fs
      (logFilePath outputDir podName containerName containerType)).isSome = true := by
  unfold WriteLogsToFile
  simp only [hcreate]
  split <;> simp [FS.put]

/-- A goroutine that ends and whose target can be created leaves a file at
its target, unless it is a log goroutine whose fetch did not deliver logs to
write (an error, or empty previous logs): then it changes nothing. -/
theorem exec_target (w : World) (fuel : Nat) (fs fs1 : FS) (out : List Str) (t : Task)
    (h : t.exec w fuel fs = some (fs1, out)) (hcreate : w.sys.create t.target = none) :
    (fs1 t.target).isSome = true ∨
    (fs1 = fs ∧ ∃ d n p c tl previous init, t = .log d n p c tl previous init ∧
      ∀ logs, GetPodLogs w.getLogs fuel n p c tl previous = some (logs, none) →
        previous = true ∧ logs = []) := by
  cases t with
  | spec filePath ns name resourceType =>
    left
    simp only [Task.exec] at h
    split at h <;>
    · simp only [Option.some.injEq, Prod.mk.injEq] at h
      rw [← h.1]
      exact WriteResourceSpecToFile_creates _ _ _ _ _ _ hcreate
  | desc filePath ns name resourceType =>
    left
    simp only [Task.exec] at h
    split at h <;>
    · simp only [Option.some.injEq, Prod.mk.injEq] at h
      rw [← h.1]
      exact WriteResourceDescToFile_creates _ _ _ _ _ _ hcreate
  | log outputDir ns podName containerName tailLines previous init =>
    simp only [Task.exec] at h
    split at h
    · simp at h
    · rename_i x e hg
      right
      simp only [Option.some.injEq, Prod.mk.injEq] at h
      refine ⟨h.1.symm, _, _, _, _, _, _, _, rfl, ?_⟩
      intro logs hl
      rw [hg] at hl
      simp at hl
    · rename_i logs hg
      split at h
      · rename_i hskip
        right
        simp only [Option.some.injEq, Prod.mk.injEq] at h
        refine ⟨h.1.symm, _, _, _, _, _, _, _, rfl, ?_⟩
        intro logs2 hl
        rw [hg] at hl
        simp only [Option.some.injEq, Prod.mk.injEq, and_true] at hl
        rw [← hl]
        exact hskip
      · left
        split at h <;>
        · simp only [Option.some.injEq, Prod.mk.injEq] at h
          rw [← h.1]
          exact WriteLogsToFile_creates _ _ _ _ _ _ _ hcreate

/-- A log goroutine whose fetch delivers logs to write, and whose file can be
created and written, leaves exactly these logs in its target file and prints
the success line. -/
theorem exec_log_success (w : World) (fuel : Nat) (fs : FS)
    (outputDir ns p c : Str) (tl : Int) (previous init : Bool) (logs : Str)
    (hg : GetPodLogs w.getLogs fuel ns p c tl previous = some (logs, none))
    (hlogs : previous = true → logs ≠ [])
    (hcreate : w.sys.create (logFilePath outputDir p c (role init)) = none)
    (hwrite : w.sys.writeString (logFilePath outputDir p c (role init)) logs = none) :
    (Task.log outputDir ns p c tl previous init).exec w fuel fs =
      some (fs.put (logFilePath outputDir p c (role init)) logs,
        ["Logs written to file for Pod: ".toList ++ p ++ ", ".toList ++ roleTitle init ++
          ": ".toList ++ c ++ "\n".toList]) := by
  have hskip : ¬ (previous = true ∧ logs = []) := fun h => hlogs h.1 h.2
  simp only [Task.exec, hg, if_neg hskip]
  unfold WriteLogsToFile
  simp only [hcreate, hwrite, FS.put_put, List.nil_append]

theorem specLogPath_eq (base outputDir p c : Str) (previous init : Bool)
    (hd : outputDir = base ++ '/' :: logRel previous) :
    outputDir ++ '/' :: (p ++ '_' :: (c ++ '_' :: (role init ++ ".log".toList))) =
      specLogPath base previous init p c := by
  rw [hd]
  cases previous <;> cases init <;> simp [specLogPath, logRel, role]

/-! ## C6: where log files go -/

theorem WriteLogsToFile_ok (sys : Sys) (fs : FS)
    (outputDir podName containerName logs containerType : Str)
    (hcreate : sys.create (logFilePath outputDir podName containerName containerType) = none)
    (hwrite : sys.writeString (logFilePath outputDir podName containerName containerType) logs =
      none) :
    (WriteLogsToFile sys fs outputDir podName containerName logs containerType).err = none ∧
    (WriteLogsToFile sys fs outputDir podName containerName logs containerType).fs
      (logFilePath outputDir podName containerName containerType) = some logs := by
  unfold WriteLogsToFile
  simp only [hcreate, hwrite]
  simp [FS.put]

/-- C6: a log goroutine of `main` for pod `p` and container `c` passes the
directory `<root>/logs` (current logs) or `<root>/logs-previous` (previous
logs); its role is `init-container` when `c` is one of the init containers
of a listed pod named `p` and `container` when it is one of its containers.
Whatever the goroutine does, it leaves every file but
`<root>/logs[-previous]/<p>_<c>_<role>.log` (cleaned as a path) as it was;
and for names without a separator, whenever the fetch delivers logs to write
and the file can be created and written, the goroutine ends with exactly
these logs in that very file and prints the success line. -/
theorem C6_log_file_paths (f : Flags) (w : World) (outputDir ns p c : Str) (tl : Int)
    (previous init : Bool)
    (ht : Task.log outputDir ns p c tl previous init ∈ (main f w).tasks) :
    outputDir = baseDir f.outputDir ++
      (if previous then "/logs-previous".toList else "/logs".toList) ∧
    role init = (if init then "init-container".toList else "container".toList) ∧
    (∃ listed snap, listAll w ns = (listed, .ok snap) ∧ ∃ pod ∈ snap.pods, pod.Name = p ∧
      ∃ x ∈ (if init then pod.InitContainers else pod.Containers), x.Name = c) ∧
    (∀ sys fs logs q, q ≠ logFilePath outputDir p c (role init) →
      (WriteLogsToFile sys fs outputDir p c logs (role init)).fs q = fs q) ∧
    (∀ sys fs logs, sys.create (logFilePath outputDir p c (role init)) = none →
      sys.writeString (logFilePath outputDir p c (role init)) logs = none →
      (WriteLogsToFile sys fs outputDir p c logs (role init)).err = none ∧
      (WriteLogsToFile sys fs outputDir p c logs (role init)).fs
        (logFilePath outputDir p c (role init)) = some logs) ∧
    logFilePath outputDir p c (role init) =
      Clean (outputDir ++ '/' :: (p ++ '_' :: (c ++ '_' :: (role init ++ ".log".toList)))) ∧
    ('/' ∉ p → '/' ∉ c →
      logFilePath outputDir p c (role init) =
        outputDir ++ '/' :: (p ++ '_' :: (c ++ '_' :: (role init ++ ".log".toList)))) ∧
    (∀ fuel fs fs1 out,
      (Task.log outputDir ns p c tl previous init).exec w fuel fs = some (fs1, out) →
      ∀ q, q ≠ Clean (specLogPath (baseDir f.outputDir) previous init p c) → fs1 q = fs q) ∧
    ('/' ∉ p → '/' ∉ c → ∀ fuel fs logs,
      GetPodLogs w.getLogs fuel ns p c tl previous = some (logs, none) →
      (previous = true → logs ≠ []) →
      w.sys.create (specLogPath (baseDir f.outputDir) previous init p c) = none →
      w.sys.writeString (specLogPath (baseDir f.outputDir) previous init p c) logs = none →
      (Task.log outputDir ns p c tl previous init).exec w fuel fs =
        some (fs.put (specLogPath (baseDir f.outputDir) previous init p c) logs,
          ["Logs written to file for Pod: ".toList ++ p ++ ", ".toList ++
            (if init then "InitContainer".toList else "Container".toList) ++ ": ".toList ++
            c ++ "\n".toList])) := by
  have hb := baseDir_cleanDir f.outputDir
  obtain ⟨listed, snap, hl, hn, _, hd, hpod⟩ := main_tasks_shape f w _ ht
  have hcd : CleanDir outputDir := hd ▸ logRel_cleanDir _ hb previous
  have hstr := specLogPath_eq (baseDir f.outputDir) outputDir p c previous init hd
  have hclean : logFilePath outputDir p c (role init) =
      Clean (outputDir ++ '/' :: (p ++ '_' :: (c ++ '_' :: (role init ++ ".log".toList)))) := by
    unfold logFilePath
    rw [Join_pair _ _ hcd.1]
    simp
  refine ⟨?_, rfl, ⟨listed, snap, hn ▸ hl, hpod⟩,
    fun sys fs logs q hq => WriteLogsToFile_other sys fs _ _ _ _ _ q hq,
    fun sys fs logs h1 h2 => WriteLogsToFile_ok sys fs _ _ _ _ _ h1 h2, hclean,
    fun hp hc => logFilePath_eq _ _ _ _ hcd hp hc, ?_, ?_⟩
  · rw [hd]
    cases previous <;> rfl
  · intro fuel fs fs1 out hex q hq
    refine exec_other w fuel fs fs1 out _ hex q ?_
    simp only [Task.target]
    rw [hclean, hstr]
    exact hq
  · intro hp hc fuel fs logs hg hlogs hcreate hwrite
    have hpath : logFilePath outputDir p c (role init) =
        specLogPath (baseDir f.outputDir) previous init p c := by
      rw [logFilePath_eq _ _ _ _ hcd hp hc, hstr]
    have h := exec_log_success w fuel fs outputDir ns p c tl previous init logs hg hlogs
      (hpath ▸ hcreate) (hpath ▸ hwrite)
    rw [hpath] at h
    rw [h]
    cases init <;> rfl

theorem C6_log_file_paths_witness :
    Task.log "out/pxb-diags-output/logs".toList "ns1".toList "p1".toList "init-a".toList 50
      false true ∈ (main sampleFlags sampleWorld).tasks ∧
    '/' ∉ "p1".toList ∧ '/' ∉ "init-a".toList ∧
    GetPodLogs sampleWorld.getLogs 5 "ns1".toList "p1".toList "init-a".toList 50 false =
      some ("hello world".toList, none) ∧
    specLogPath (baseDir sampleFlags.outputDir) false true "p1".toList "init-a".toList =
      "out/pxb-diags-output/logs/p1_init-a_init-container.log".toList ∧
    (Task.log "out/pxb-diags-output/logs".toList "ns1".toList "p1".toList "init-a".toList 50
      false true).exec sampleWorld 5 emptyFS =
      some (emptyFS.put (specLogPath (baseDir sampleFlags.outputDir) false true "p1".toList
          "init-a".toList) "hello world".toList,
        ["Logs written to file for Pod: ".toList ++ "p1".toList ++ ", ".toList ++
          (if true then "InitContainer".toList else "Container".toList) ++ ": ".toList ++
          "init-a".toList ++ "\n".toList]) :=
  ⟨by decide, by decide, by decide, by decide, by decide,
    (C6_log_file_paths sampleFlags sampleWorld "out/pxb-diags-output/logs".toList "ns1".toList
      "p1".toList "init-a".toList 50 false true (by decide)).2.2.2.2.2.2.2.2 (by decide)
      (by decide) 5 emptyFS "hello world".toList (by decide) (by decide) (by decide)
      (by decide)⟩

/-! ## C7: the read loop -/

theorem readLoop_drains (fuel : Nat) : ∀ (logs : LogStream) (result : Str),
    endsNormally logs = true → readCost logs < fuel →
    readLoop fuel logs result = some (.ok (result ++ logs.bytes)) := by
  induction fuel with
  | zero => intro logs result _ h; exact absurd h (Nat.not_lt_zero _)
  | succ fuel ih =>
    intro logs result hn hc
    cases logs with
    | nil => simp [readLoop, LogStream.Read, LogStream.bytes]
    | cons c rest =>
      have hrest : endsNormally rest = true := by
        simp only [endsNormally, Bool.and_eq_true] at hn
        exact hn.2
      have hcost : readCost (c :: rest) = c.data.length + 1 + readCost rest := by
        simp [readCost]
      rw [hcost] at hc
      by_cases hlen : c.data.length ≤ 2000
      · by_cases hz : c.data.length = 0
        · have hdata : c.data = [] := List.length_eq_zero.mp hz
          cases herr : c.err with
          | none =>
            have := ih rest result hrest (by omega)
            simp [readLoop, LogStream.Read, hlen, hz, herr, this, LogStream.bytes, hdata]
          | some e =>
            simp only [endsNormally, herr, Bool.and_eq_true, Bool.or_eq_true, beq_iff_eq,
              List.isEmpty_iff] at hn
            have hn1 := hn.1
            simp at hn1
            obtain ⟨hr, he⟩ := hn1
            subst hr
            simp [readLoop, LogStream.Read, hlen, hz, herr, he, LogStream.bytes, hdata]
        · have := ih rest (result ++ c.data) hrest (by omega)
          simp [readLoop, LogStream.Read, hlen, hz, this, LogStream.bytes]
      · have hlen2 : 2000 < c.data.length := by omega
        have hn2 : endsNormally (⟨c.data.drop 2000, c.err⟩ :: rest) = true := by
          simpa [endsNormally] using hn
        have hc2 : readCost (⟨c.data.drop 2000, c.err⟩ :: rest) < fuel := by
          have h3 : readCost (⟨c.data.drop 2000, c.err⟩ :: rest) =
              c.data.length - 2000 + 1 + readCost rest := by
            simp [readCost]
          omega
        have := ih (⟨c.data.drop 2000, c.err⟩ :: rest) (result ++ c.data.take 2000) hn2 hc2
        have htake : (c.data.take 2000).length ≠ 0 := by
          rw [List.length_take]; omega
        rw [readLoop]
        simp only [LogStream.Read, hlen, if_false]
        rw [if_neg htake, this]
        simp only [LogStream.bytes, List.flatMap_cons, List.append_assoc]
        rw [← List.append_assoc (c.data.take 2000), List.take_append_drop]

/-- C7: for a log stream that opens and ends normally (deliveries of any
size, empty ones included, the last possibly together with `EOF`), the read
loop stops within `readCost logs + 1` iterations and `GetPodLogs` returns
exactly the bytes delivered, in order, with a nil error. -/
theorem C7_read_loop_drains
    (getLogs : Str → Str → PodLogOptions → Except Str LogStream)
    (ns podName containerName : Str) (tailLines : Int) (previous : Bool) (logs : LogStream)
    (fuel : Nat)
    (hopen : getLogs ns podName
      ⟨containerName, if tailLines > 0 then some tailLines else none, previous⟩ = .ok logs)
    (hends : endsNormally logs = true) (hfuel : readCost logs < fuel) :
    readLoop fuel logs [] = some (.ok logs.bytes) ∧
    GetPodLogs getLogs fuel ns podName containerName tailLines previous =
      some (logs.bytes, none) := by
  have h := readLoop_drains fuel logs [] hends hfuel
  simp only [List.nil_append] at h
  refine ⟨h, ?_⟩
  unfold GetPodLogs
  simp only [hopen, h]

theorem sampleStream_cost : readCost sampleStream < 2600 := by
  simp only [readCost, sampleStream, List.map_cons, List.map_nil, List.sum_cons, List.sum_nil,
    List.length_replicate, List.length_nil]
  decide

theorem C7_read_loop_drains_witness :
    (fun (_ _ : Str) (_ : PodLogOptions) => (Except.ok sampleStream : Except Str LogStream))
      "ns1".toList "p1".toList
      ⟨"main-b".toList, if (50 : Int) > 0 then some 50 else none, false⟩ = .ok sampleStream ∧
    endsNormally sampleStream = true ∧ readCost sampleStream < 2600 ∧
    readLoop 2600 sampleStream [] = some (.ok sampleStream.bytes) ∧
    GetPodLogs (fun _ _ _ => .ok sampleStream) 2600 "ns1".toList "p1".toList "main-b".toList 50
      false = some (sampleStream.bytes, none) :=
  ⟨rfl, by decide, sampleStream_cost,
    C7_read_loop_drains (fun _ _ _ => .ok sampleStream) "ns1".toList "p1".toList
      "main-b".toList 50 false sampleStream 2600 rfl (by decide) sampleStream_cost⟩

/-! ## C8: the number of goroutines -/

theorem filterMap_flatMap {α β γ : Type} (g : β → Option γ) (h : α → List β)
    (xs : List α) :
    (xs.flatMap h).filterMap g = xs.flatMap (fun x => (h x).filterMap g) := by
  induction xs with
  | nil => rfl
  | cons x xs ih => simp [List.flatMap_cons, List.filterMap_append, ih]

theorem flatMap_nil_const {α β : Type} (xs : List α) :
    xs.flatMap (fun _ => ([] : List β)) = [] := by
  induction xs with
  | nil => rfl
  | cons x xs ih => simp [List.flatMap_cons, ih]

theorem flatMap_singleton_eq_map {α β : Type} (g : α → β) (xs : List α) :
    xs.flatMap (fun x => [g x]) = xs.map g := by
  induction xs with
  | nil => rfl
  | cons x xs ih => simp [List.flatMap_cons, ih]

theorem filterMap_const_none {α β : Type} (xs : List α) :
    xs.filterMap (fun _ => (none : Option β)) = [] := by
  induction xs with
  | nil => rfl
  | cons x xs ih => simp [List.filterMap_cons, ih]

theorem filterMap_some_eq_map {α β : Type} (g : α → β) (xs : List α) :
    xs.filterMap (fun x => some (g x)) = xs.map g := by
  induction xs with
  | nil => rfl
  | cons x xs ih => simp [List.filterMap_cons, ih]

theorem specNames_collectTasks (base ns : Str) (tailLines : Int) (snap : Snapshot) (kind : Str)
    (hk : kind ∈ trackedKinds) :
    specNames (collectTasks base ns tailLines snap) kind = snap.names kind := by
  simp only [trackedKinds, List.mem_cons, List.mem_singleton, List.not_mem_nil, or_false] at hk
  rcases hk with rfl | rfl | rfl | rfl | rfl | rfl | rfl | rfl <;>
  simp [specNames, collectTasks, podTasks, Snapshot.names, filterMap_flatMap,
    List.filterMap_append, List.filterMap_map, Function.comp_def,
    npSpecTask, quotaSpecTask, cmSpecTask, deploymentSpecTask, deploymentDescTask,
    pvcSpecTask, pvcDescTask, statefulSetSpecTask, statefulSetDescTask, jobSpecTask,
    jobDescTask, podSpecTask, podDescTask, currentLogTask, previousLogTask,
    podResource, jobResource, cmResource, statefulSetResource, deploymentResource,
    resourceQuotaResource, networkPolicyResource, pvcResource, flatMap_nil_const,
    flatMap_singleton_eq_map, filterMap_const_none, filterMap_some_eq_map]

theorem descNames_collectTasks (base ns : Str) (tailLines : Int) (snap : Snapshot) (kind : Str)
    (hk : kind ∈ trackedKinds) :
    descNames (collectTasks base ns tailLines snap) kind =
      if kind ∈ describedKinds then snap.names kind else [] := by
  simp only [trackedKinds, List.mem_cons, List.mem_singleton, List.not_mem_nil, or_false] at hk
  rcases hk with rfl | rfl | rfl | rfl | rfl | rfl | rfl | rfl <;>
  simp [descNames, collectTasks, podTasks, Snapshot.names, filterMap_flatMap, describedKinds,
    List.filterMap_append, List.filterMap_map, Function.comp_def,
    npSpecTask, quotaSpecTask, cmSpecTask, deploymentSpecTask, deploymentDescTask,
    pvcSpecTask, pvcDescTask, statefulSetSpecTask, statefulSetDescTask, jobSpecTask,
    jobDescTask, podSpecTask, podDescTask, currentLogTask, previousLogTask,
    podResource, jobResource, cmResource, statefulSetResource, deploymentResource,
    resourceQuotaResource, networkPolicyResource, pvcResource, flatMap_nil_const,
    flatMap_singleton_eq_map, filterMap_const_none, filterMap_some_eq_map]

theorem logKeys_podTasks (base ns : Str) (tailLines : Int) (pod : Pod) (previous : Bool) :
    logKeys (podTasks base ns tailLines pod) previous = pod.logKeys := by
  cases previous <;>
  simp [logKeys, podTasks, Pod.logKeys, List.filterMap_append, List.filterMap_map,
    Function.comp_def, podSpecTask, podDescTask, currentLogTask, previousLogTask,
    filterMap_const_none, filterMap_some_eq_map]

theorem logKeys_append (xs ys : List Task) (previous : Bool) :
    logKeys (xs ++ ys) previous = logKeys xs previous ++ logKeys ys previous := by
  simp [logKeys, List.filterMap_append]

theorem logKeys_collectTasks (base ns : Str) (tailLines : Int) (snap : Snapshot)
    (previous : Bool) :
    logKeys (collectTasks base ns tailLines snap) previous = snap.pods.flatMap Pod.logKeys := by
  have hp : logKeys (snap.pods.flatMap (podTasks base ns tailLines)) previous =
      snap.pods.flatMap Pod.logKeys := by
    induction snap.pods with
    | nil => rfl
    | cons p ps ih =>
      rw [List.flatMap_cons, logKeys_append, ih, logKeys_podTasks, List.flatMap_cons]
  unfold collectTasks
  rw [logKeys_append, hp]
  simp [logKeys, List.filterMap_append, List.filterMap_map, Function.comp_def,
    filterMap_flatMap, npSpecTask, quotaSpecTask, cmSpecTask, deploymentSpecTask,
    deploymentDescTask, pvcSpecTask, pvcDescTask, statefulSetSpecTask, statefulSetDescTask,
    jobSpecTask, jobDescTask, flatMap_nil_const, filterMap_const_none]

/-- C8: after the launch loops, for every tracked kind the Spec goroutines
are one per listed instance (their names are the listed names, in order);
the Description goroutines are one per instance for the kinds with
descriptions and none for the other kinds; the current-log and the
previous-log goroutines are each one per container of every pod (init
containers and containers), so a pod with C containers has 2*C+2 goroutines;
and the wait group count equals the number of goroutines, which is the sum
of these counts. In every run of `main` the wait group count is the number
of goroutines launched, and these are the goroutines of the launch loops for
the listed snapshot. -/
theorem C8_task_counts (base ns : Str) (tailLines : Int) (snap : Snapshot) :
    (∀ kind ∈ trackedKinds,
      specNames (collect base ns tailLines snap).tasks kind = snap.names kind) ∧
    (∀ kind ∈ trackedKinds,
      descNames (collect base ns tailLines snap).tasks kind =
        if kind ∈ describedKinds then snap.names kind else []) ∧
    (∀ previous,
      logKeys (collect base ns tailLines snap).tasks previous =
        snap.pods.flatMap Pod.logKeys) ∧
    (∀ pod : Pod, pod.logKeys.length = pod.InitContainers.length + pod.Containers.length ∧
      (podTasks base ns tailLines pod).length =
        2 * (pod.InitContainers.length + pod.Containers.length) + 2 ∧
      ∀ previous, logKeys (podTasks base ns tailLines pod) previous = pod.logKeys) ∧
    (collect base ns tailLines snap).wg = (collect base ns tailLines snap).tasks.length ∧
    (collect base ns tailLines snap).wg =
      (trackedKinds.map (fun kind => (snap.names kind).length)).sum +
      (describedKinds.map (fun kind => (snap.names kind).length)).sum +
      (snap.pods.map (fun pod =>
        2 * (pod.InitContainers.length + pod.Containers.length))).sum ∧
    (∀ (f : Flags) (w : World), (main f w).wg = (main f w).tasks.length ∧
      ((main f w).tasks = [] ∨
        ∃ listed snap1, listAll w (resolveNamespace f w).2 = (listed, .ok snap1) ∧
          (main f w).tasks = (collect (baseDir f.outputDir) (resolveNamespace f w).2
            f.tailLines snap1).tasks)) := by
  have hmain : ∀ (f : Flags) (w : World), (main f w).wg = (main f w).tasks.length ∧
      ((main f w).tasks = [] ∨
        ∃ listed snap1, listAll w (resolveNamespace f w).2 = (listed, .ok snap1) ∧
          (main f w).tasks = (collect (baseDir f.outputDir) (resolveNamespace f w).2
            f.tailLines snap1).tasks) := by
    intro f w
    rcases main_run f w with ⟨h1, _, h3⟩ | ⟨listed, snap1, hl, htasks, hwg, _, _⟩
    · exact ⟨by rw [h1, h3]; rfl, Or.inl h1⟩
    · exact ⟨hwg, Or.inr ⟨listed, snap1, hl, by rw [htasks, collect_eq]⟩⟩
  rw [collect_eq]
  refine ⟨fun kind hk => specNames_collectTasks base ns tailLines snap kind hk,
    fun kind hk => descNames_collectTasks base ns tailLines snap kind hk,
    fun previous => logKeys_collectTasks base ns tailLines snap previous,
    fun pod => ⟨by simp [Pod.logKeys], length_podTasks base ns tailLines pod,
      fun previous => logKeys_podTasks base ns tailLines pod previous⟩,
    (length_collectTasks base ns tailLines snap).symm, ?_, hmain⟩
  have hsum : (snap.pods.map (fun pod =>
      2 * (pod.InitContainers.length + pod.Containers.length) + 2)).sum =
      (snap.pods.map (fun pod =>
        2 * (pod.InitContainers.length + pod.Containers.length))).sum +
      2 * snap.pods.length := by
    induction snap.pods with
    | nil => rfl
    | cons p ps ih => simp [ih]; omega
  simp only [hsum]
  simp [trackedKinds, describedKinds, Snapshot.names, podResource, jobResource, cmResource,
    statefulSetResource, deploymentResource, resourceQuotaResource, networkPolicyResource,
    pvcResource]
  omega

theorem C8_task_counts_witness :
    (collect (baseDir sampleFlags.outputDir) "ns1".toList 50 sampleSnapshot).wg = 9 ∧
    specNames (collect (baseDir sampleFlags.outputDir) "ns1".toList 50 sampleSnapshot).tasks
      podResource = ["p1".toList] ∧
    logKeys (collect (baseDir sampleFlags.outputDir) "ns1".toList 50 sampleSnapshot).tasks true =
      [("p1".toList, "init-a".toList, true), ("p1".toList, "main-b".toList, false)] :=
  ⟨by
      rw [(C8_task_counts (baseDir sampleFlags.outputDir) "ns1".toList 50
        sampleSnapshot).2.2.2.2.2.1]
      decide,
    (C8_task_counts (baseDir sampleFlags.outputDir) "ns1".toList 50 sampleSnapshot).1
      podResource (by decide),
    (C8_task_counts (baseDir sampleFlags.outputDir) "ns1".toList 50 sampleSnapshot).2.2.1 true⟩

/-! ## C9: no two goroutines write the same file -/

/-- C9: the output-path planning is collision-free. When the listed names
are Kubernetes names (no `/`, no `_`), two different goroutines of a run
(different kind, artifact, instance name, or pod, container and role) never
have the same target file; when moreover the names are unique within each
kind and the container names within the init containers and the containers
of each pod, the target files of the goroutines of a run, taken in launch
order, are pairwise different. The target file is the file the goroutine
writes: a goroutine that ends leaves every other file as it was, and when
its target can be created it leaves a file there, unless it is a log
goroutine whose fetch delivered nothing to write. -/
theorem C9_target_paths_distinct (f : Flags) (w : World)
    (hvalid : ∀ ns listed snap, listAll w ns = (listed, .ok snap) → snap.Valid) :
    (∀ t1 ∈ (main f w).tasks, ∀ t2 ∈ (main f w).tasks,
      t1 ≠ t2 → t1.target ≠ t2.target) ∧
    ((∀ ns listed snap, listAll w ns = (listed, .ok snap) → snap.Unique) →
      ((main f w).tasks.map Task.target).Nodup) ∧
    (∀ t ∈ (main f w).tasks, ∀ fuel fs fs1 out, t.exec w fuel fs = some (fs1, out) →
      (∀ q, q ≠ t.target → fs1 q = fs q) ∧
      (w.sys.create t.target = none →
        (fs1 t.target).isSome = true ∨
        (fs1 = fs ∧ ∃ d n p c tl previous init, t = .log d n p c tl previous init ∧
          ∀ logs, GetPodLogs w.getLogs fuel n p c tl previous = some (logs, none) →
            previous = true ∧ logs = []))) := by
  have hinj : ∀ t1 ∈ (main f w).tasks, ∀ t2 ∈ (main f w).tasks,
      t1.target = t2.target → t1 = t2 := by
    intro t1 h1 t2 h2 heq
    obtain ⟨listed1, snap1, hl1, hs1⟩ := main_tasks_shape f w t1 h1
    obtain ⟨listed2, snap2, hl2, hs2⟩ := main_tasks_shape f w t2 h2
    rw [hl1] at hl2
    simp only [Prod.mk.injEq, Except.ok.injEq] at hl2
    obtain ⟨_, hsnap⟩ := hl2
    subst hsnap
    exact target_injective _ _ _ snap1 (baseDir_cleanDir f.outputDir)
      (hvalid _ _ _ hl1) t1 t2 hs1 hs2 heq
  refine ⟨fun t1 h1 t2 h2 hne heq => hne (hinj t1 h1 t2 h2 heq), ?_,
    fun t _ fuel fs fs1 out hex =>
      ⟨fun q hq => exec_other w fuel fs fs1 out t hex q hq,
        fun hcreate => exec_target w fuel fs fs1 out t hex hcreate⟩⟩
  intro hunique
  refine List.Nodup.map_on hinj ?_
  rcases main_run f w with ⟨h, _, _⟩ | ⟨listed, snap, hl, htasks, _, _, _⟩
  · rw [h]; exact List.nodup_nil
  · rw [htasks]
    exact nodup_collectTasks _ _ _ snap (hunique _ _ _ hl)

theorem listAll_sampleWorld (ns : Str) :
    listAll sampleWorld ns = (trackedKinds, .ok sampleSnapshot) := rfl

theorem sampleSnapshot_valid : sampleSnapshot.Valid := by
  unfold Snapshot.Valid ValidName
  decide

theorem sampleSnapshot_unique : sampleSnapshot.Unique := by
  unfold Snapshot.Unique
  decide

theorem C9_target_paths_distinct_witness :
    (∀ ns listed snap, listAll sampleWorld ns = (listed, .ok snap) → snap.Valid) ∧
    (∀ ns listed snap, listAll sampleWorld ns = (listed, .ok snap) → snap.Unique) ∧
    (main sampleFlags sampleWorld).tasks.length = 9 ∧
    ((main sampleFlags sampleWorld).tasks.map Task.target).Nodup :=
  ⟨fun ns listed snap h => by
      rw [listAll_sampleWorld] at h
      simp only [Prod.mk.injEq, Except.ok.injEq] at h
      exact h.2 ▸ sampleSnapshot_valid,
    fun ns listed snap h => by
      rw [listAll_sampleWorld] at h
      simp only [Prod.mk.injEq, Except.ok.injEq] at h
      exact h.2 ▸ sampleSnapshot_unique,
    by decide,
    (C9_target_paths_distinct sampleFlags sampleWorld (fun ns listed snap h => by
      rw [listAll_sampleWorld] at h
      simp only [Prod.mk.injEq, Except.ok.injEq] at h
      exact h.2 ▸ sampleSnapshot_valid)).2.1 (fun ns listed snap h => by
      rw [listAll_sampleWorld] at h
      simp only [Prod.mk.injEq, Except.ok.injEq] at h
      exact h.2 ▸ sampleSnapshot_unique)⟩

theorem oddNamesSnapshot_unique : oddNamesSnapshot.Unique := by
  unfold Snapshot.Unique
  decide

/-- Remark: the restriction to Kubernetes names is needed for strings in
general. With the names `a_b`, `b_c` and `./x`, which no cluster returns, the
logs of container `c` of pod `a_b` and of container `b_c` of pod `a` would
both go to `logs/a_b_c_container.log`, and the Spec files of config maps `x`
and `./x` both to `configmap/x.yaml`. -/
theorem odd_names_collide :
    (∀ ns, listAll oddNamesWorld ns = (trackedKinds, .ok oddNamesSnapshot)) ∧
    oddNamesSnapshot.Unique ∧
    Task.log "out/pxb-diags-output/logs".toList "ns1".toList "a_b".toList "c".toList 50
      false false ∈ (main sampleFlags oddNamesWorld).tasks ∧
    Task.log "out/pxb-diags-output/logs".toList "ns1".toList "a".toList "b_c".toList 50
      false false ∈ (main sampleFlags oddNamesWorld).tasks ∧
    (Task.log "out/pxb-diags-output/logs".toList "ns1".toList "a_b".toList "c".toList 50
      false false).target = "out/pxb-diags-output/logs/a_b_c_container.log".toList ∧
    (Task.log "out/pxb-diags-output/logs".toList "ns1".toList "a".toList "b_c".toList 50
      false false).target = "out/pxb-diags-output/logs/a_b_c_container.log".toList ∧
    Task.spec "out/pxb-diags-output/configmap".toList "ns1".toList "x".toList cmResource ∈
      (main sampleFlags oddNamesWorld).tasks ∧
    Task.spec "out/pxb-diags-output/configmap".toList "ns1".toList "./x".toList cmResource ∈
      (main sampleFlags oddNamesWorld).tasks ∧
    (Task.spec "out/pxb-diags-output/configmap".toList "ns1".toList "x".toList
      cmResource).target = "out/pxb-diags-output/configmap/x.yaml".toList ∧
    (Task.spec "out/pxb-diags-output/configmap".toList "ns1".toList "./x".toList
      cmResource).target = "out/pxb-diags-output/configmap/x.yaml".toList :=
  ⟨fun _ => rfl, oddNamesSnapshot_unique, by decide⟩

/-! ## C10: the directories exist before the goroutines start -/

theorem collectTasks_dir (base ns : Str) (tailLines : Int) (snap : Snapshot) :
    ∀ t ∈ collectTasks base ns tailLines snap, t.dir ∈ directories base := by
  intro t ht
  simp only [collectTasks, podTasks, List.mem_append, List.mem_map, List.mem_flatMap,
    List.mem_cons, List.mem_singleton, List.not_mem_nil, or_false, or_assoc] at ht
  rcases ht with ⟨x, hx, rfl⟩ | ⟨x, hx, rfl⟩ | ⟨x, hx, rfl⟩ | ⟨x, hx, rfl | rfl⟩ |
    ⟨x, hx, rfl | rfl⟩ | ⟨x, hx, rfl | rfl⟩ | ⟨x, hx, rfl | rfl⟩ |
    ⟨p, hp, ⟨c, hc, rfl⟩ | ⟨c, hc, rfl⟩ | ⟨c, hc, rfl⟩ | ⟨c, hc, rfl⟩ | rfl | rfl⟩ <;>
  simp [Task.dir, directories, npSpecTask, quotaSpecTask, cmSpecTask, deploymentSpecTask,
    deploymentDescTask, pvcSpecTask, pvcDescTask, statefulSetSpecTask, statefulSetDescTask,
    jobSpecTask, jobDescTask, podSpecTask, podDescTask, currentLogTask, previousLogTask]

theorem dropWhile_append_stop (p : Char → Bool) (l rest : Str) (a : Char)
    (hl : ∀ c ∈ l, p c = true) (ha : p a = false) :
    (l ++ a :: rest).dropWhile p = a :: rest := by
  induction l with
  | nil => simp [List.dropWhile, ha]
  | cons c cs ih =>
    have hc : p c = true := hl c (by simp)
    simp only [List.cons_append, List.dropWhile_cons, hc, if_true]
    exact ih (fun x hx => hl x (List.mem_cons_of_mem _ hx))

theorem Dir_append (b file : Str) (hb : CleanDir b) (hf : '/' ∉ file) :
    Dir (b ++ '/' :: file) = b := by
  unfold Dir
  have h1 : (b ++ '/' :: file).reverse = file.reverse ++ '/' :: b.reverse := by simp
  rw [h1, dropWhile_append_stop _ _ _ _ (by
    intro c hc
    have : c ≠ '/' := fun e => hf (by rw [← e]; exact List.mem_reverse.mp hc)
    simp [this]) (by simp)]
  have h2 : ('/' :: b.reverse).reverse = b ++ '/' :: [] := by simp
  rw [h2]
  obtain ⟨hne, hcl, _⟩ := hb
  have h3 : b ++ '/' :: [] ≠ [] := by simp
  rw [Clean_eq_render _ h3, isRooted_append _ _ hne, cleanElems_append_slash]
  have h4 : (splitSlash []).foldl (cleanStep (isRooted b)) (cleanElems (isRooted b) b) =
      cleanElems (isRooted b) b := by
    simp [splitSlash, cleanStep]
  rw [h4, ← Clean_eq_render _ hne, hcl]

theorem isAncestor_logsPath (b : Str) (hb : CleanDir b) : isAncestor b (logsPath b) := by
  rw [(logsPath_eq b hb).1]
  refine ⟨(isRooted_append _ _ hb.1).symm, ["logs".toList], by simp, ?_⟩
  rw [isRooted_append _ _ hb.1]
  exact cleanElems_append_plain _ _ _ (plain_of_decide _ (by decide))

/-- C10: in every run of `main`, the directory argument of every goroutine
launched is one of the `directories`, all of which `main` has created by
then, and the parent directory of every list file written is the bundle
root, a proper ancestor of the created directory `<root>/logs`. -/
theorem C10_directories_created_first (f : Flags) (w : World) :
    (∀ t ∈ (main f w).tasks,
      t.dir ∈ directories (baseDir f.outputDir) ∧ t.dir ∈ (main f w).mkdirs) ∧
    (∀ l ∈ (main f w).lists,
      Dir l.filePath = baseDir f.outputDir ∧
      ∃ m ∈ directories (baseDir f.outputDir), m ∈ (main f w).mkdirs ∧
        isAncestor (Dir l.filePath) m) ∧
    ((main f w).tasks ≠ [] ∨ (main f w).lists ≠ [] →
      (main f w).mkdirs = directories (baseDir f.outputDir)) := by
  have hb := baseDir_cleanDir f.outputDir
  rcases main_run f w with ⟨h1, h2, _⟩ | ⟨listed, snap, _, htasks, _, hmk, hlists⟩
  · rw [h1, h2]
    simp
  · refine ⟨?_, ?_, fun _ => hmk⟩
    · intro t ht
      rw [htasks] at ht
      have := collectTasks_dir _ _ _ _ t ht
      exact ⟨this, hmk ▸ this⟩
    · intro l hl
      have hd : Dir l.filePath = baseDir f.outputDir := by
        rw [hlists] at hl
        simp only [List.mem_cons, List.mem_singleton, List.not_mem_nil, or_false] at hl
        rcases hl with rfl | rfl | rfl
        · simp only [podListPath_eq _ hb]
          exact Dir_append _ _ hb (by decide)
        · simp only [prometheusListPath_eq _ hb]
          exact Dir_append _ _ hb (by decide)
        · simp only [alertmanagerListPath_eq _ hb]
          exact Dir_append _ _ hb (by decide)
      have hm : logsPath (baseDir f.outputDir) ∈ directories (baseDir f.outputDir) := by
        simp [directories]
      exact ⟨hd, logsPath _, hm, hmk ▸ hm, by rw [hd]; exact isAncestor_logsPath _ hb⟩

theorem C10_directories_created_first_witness :
    (main sampleFlags sampleWorld).tasks ≠ [] ∧
    (main sampleFlags sampleWorld).mkdirs = directories (baseDir sampleFlags.outputDir) :=
  ⟨by decide,
    (C10_directories_created_first sampleFlags sampleWorld).2.2 (Or.inl (by decide))⟩

/-! ## C11: a failing write -/

theorem WriteResourceSpecToFile_write_error (sys : Sys) (fs : FS)
    (filePath ns resourceName resourceType e : Str) (n : Nat)
    (hcreate : sys.create (specFilePath filePath resourceName) = none)
    (hrun : (sys.run ["kubectl".toList, "get".toList, resourceType, resourceName, "-n".toList,
      ns, "-o".toList, "yaml".toList]).err = none)
    (hwrite : sys.writeString (specFilePath filePath resourceName)
      (sys.run ["kubectl".toList, "get".toList, resourceType, resourceName, "-n".toList,
        ns, "-o".toList, "yaml".toList]).stdout = some (n, e)) :
    (WriteResourceSpecToFile sys fs filePath ns resourceName resourceType).err = none := by
  unfold WriteResourceSpecToFile
  simp only [hcreate, hrun, hwrite]

theorem WriteResourceDescToFile_write_error (sys : Sys) (fs : FS)
    (filePath ns resourceName resourceType e : Str) (n : Nat)
    (hcreate : sys.create (descFilePath filePath resourceName) = none)
    (hrun : (sys.run ["kubectl".toList, "describe".toList, resourceType, resourceName,
      "-n".toList, ns]).err = none)
    (hwrite : sys.writeString (descFilePath filePath resourceName)
      (sys.run ["kubectl".toList, "describe".toList, resourceType, resourceName,
        "-n".toList, ns]).stdout = some (n, e)) :
    (WriteResourceDescToFile sys fs filePath ns resourceName resourceType).err = none := by
  unfold WriteResourceDescToFile
  simp only [hcreate, hrun, hwrite]

theorem WriteLogsToFile_write_error (sys : Sys) (fs : FS)
    (outputDir podName containerName logs containerType e : Str) (n : Nat)
    (hcreate : sys.create (logFilePath outputDir podName containerName containerType) = none)
    (hwrite : sys.writeString (logFilePath outputDir podName containerName containerType) logs =
      some (n, e)) :
    (WriteLogsToFile sys fs outputDir podName containerName logs containerType).err =
      some ("error writing logs to file: ".toList ++ e) := by
  unfold WriteLogsToFile
  simp only [hcreate, hwrite]

/-- C11 (code defect): on a full disk, where `kubectl` delivers
`kind: ConfigMap` and the write fails after 4 bytes, both helpers print the
write error but return a nil error with only `kind` in the file, so the Spec
goroutine for config map `c1` and the Description goroutine for job `j1` of
`main` end with the `written to file` line; `WriteLogsToFile` on the same
disk returns the error. -/
theorem C11_failed_write_reported_as_success :
    (WriteResourceSpecToFile sysWriteFails emptyFS "out/pxb-diags-output/configmap".toList
      "ns1".toList "c1".toList cmResource).err = none ∧
    (WriteResourceSpecToFile sysWriteFails emptyFS "out/pxb-diags-output/configmap".toList
      "ns1".toList "c1".toList cmResource).fs "out/pxb-diags-output/configmap/c1.yaml".toList =
      some "kind".toList ∧
    (WriteResourceSpecToFile sysWriteFails emptyFS "out/pxb-diags-output/configmap".toList
      "ns1".toList "c1".toList cmResource).out =
      ["Error writing spec of configmap/c1 to file: no space left on device".toList] ∧
    Task.spec "out/pxb-diags-output/configmap".toList "ns1".toList "c1".toList cmResource ∈
      (main sampleFlags diskFullWorld).tasks ∧
    ((Task.spec "out/pxb-diags-output/configmap".toList "ns1".toList "c1".toList
      cmResource).exec diskFullWorld 0 emptyFS).map (fun r => r.2) =
      some ["Error writing spec of configmap/c1 to file: no space left on device".toList,
        "ConfigMap spec written to file for ConfigMap: c1\n".toList] ∧
    (WriteResourceDescToFile sysWriteFails emptyFS "out/pxb-diags-output/job/describe".toList
      "ns1".toList "j1".toList jobResource).err = none ∧
    (WriteResourceDescToFile sysWriteFails emptyFS "out/pxb-diags-output/job/describe".toList
      "ns1".toList "j1".toList jobResource).fs "out/pxb-diags-output/job/describe/j1.txt".toList =
      some "kind".toList ∧
    Task.desc "out/pxb-diags-output/job/describe".toList "ns1".toList "j1".toList jobResource ∈
      (main sampleFlags diskFullWorld).tasks ∧
    ((Task.desc "out/pxb-diags-output/job/describe".toList "ns1".toList "j1".toList
      jobResource).exec diskFullWorld 0 emptyFS).map (fun r => r.2) =
      some ["Error writing description of job/j1 to file: no space left on device".toList,
        "Job description written to file for Job: j1\n".toList] ∧
    (WriteLogsToFile sysWriteFails emptyFS "out/pxb-diags-output/logs".toList "p1".toList
      "main-b".toList "hello".toList "container".toList).err =
      some "error writing logs to file: no space left on device".toList := by
  decide

end LogCollector
